import Mathlib

/-!
Verification of the pingbot research-study enrollment and notification backend.

The Python sources (flask_app/) are shallowly embedded here:
* timestamps are integers (seconds), dates are integers (day numbers);
* the database is a record of lists, one per table; SQLAlchemy queries
  become list traversals; object mutation becomes functional update of
  the first matching list element (mirroring `.first()` /
  `scalar_one_or_none` followed by attribute assignment);
* randomness (`random.randint`, `random.choices`) is passed in as an
  explicit draw argument, so theorems quantify over all draws;
* a pytz timezone attached via `datetime.combine(..., tzinfo=tz)` applies
  one fixed UTC offset to every datetime of that zone, so a timezone is
  embedded as its fixed offset in seconds.

Field names and function names follow the source.  The snapshot's
`models.py` lags behind `crud.py` (which references `deleted_at`,
`sent_ts`, `reminder_sent_ts`, `first_clicked_ts` and the `Support`
model); record fields for those columns are taken from their uses in
`crud.py`.
-/

namespace Pingbot

/-! ## utils.py -/

/-- `string.ascii_lowercase` -/
def ascii_lowercase : List Char := (List.range 26).map (fun i => Char.ofNat (97 + i))

/-- `string.ascii_uppercase` -/
def ascii_uppercase : List Char := (List.range 26).map (fun i => Char.ofNat (65 + i))

/-- `string.digits` -/
def ascii_digits : List Char := (List.range 10).map (fun i => Char.ofNat (48 + i))

/-- The character pool built inside `generate_non_confusable_code`:
lowercase minus l and o, then uppercase minus I and O, then digits minus 0 and 1. -/
def non_confusable_chars : List Char :=
  (ascii_lowercase.filter (fun ch => decide (ch ∉ (['l', 'o'] : List Char))))
    ++ (ascii_uppercase.filter (fun ch => decide (ch ∉ (['I', 'O'] : List Char))))
    ++ (ascii_digits.filter (fun ch => decide (ch ∉ (['0', '1'] : List Char))))

/-- `generate_non_confusable_code(length)`; `pick i` is the index drawn by
`random.choices` for position `i` (reduced modulo the pool size, which is how a
uniform choice from the pool is parametrised). The Python default is the keyword
default `length=8`. -/
def generate_non_confusable_code (pick : Nat → Nat) (length : Nat := 8) : List Char :=
  (List.range length).map
    (fun i => non_confusable_chars.getD (pick i % non_confusable_chars.length) (Char.ofNat 97))

/-! ## participant_facing.py: random_time -/

/-- Split a character list into the fields between occurrences of `sep`
(`str.split` on one character). -/
def splitFields (sep : Char) : List Char → List (List Char)
  | [] => [[]]
  | c :: cs =>
    let rest := splitFields sep cs
    if c == sep then [] :: rest
    else
      match rest with
      | [] => [[c]]
      | f :: fs => (c :: f) :: fs

/-- All-digit character run to its decimal value (`String.toNat?` on a
field). -/
def charsToNat? (cs : List Char) : Option Nat :=
  if cs.isEmpty then none
  else if cs.all Char.isDigit then
    some (cs.foldl (fun n c => 10 * n + (c.toNat - 48)) 0)
  else none

/-- `datetime.strptime(s, "%H:%M").time()`: parse an HH:MM string to
(hour, minute); fails (raises in Python) on anything else.  (The embedding
does not enforce strptime's at-most-two-digit field width.) -/
def parseHHMM (s : String) : Option (Nat × Nat) :=
  match splitFields (':') s.toList with
  | [h, m] =>
    match charsToNat? h, charsToNat? m with
    | some hh, some mm => if hh < 24 && mm < 60 then some (hh, mm) else none
    | _, _ => none
  | _ => none

/-- The instant `start_date + day_num days` at wall-clock `hh:mm` in a zone of
fixed UTC offset `tzOffset` seconds, as a UTC timestamp in seconds.  This is
`datetime.combine(start_date + timedelta(days=day_num), time(hh, mm), tzinfo=tz)`. -/
def interval_ts (start_date day_num : Int) (hh mm : Nat) (tzOffset : Int) : Int :=
  (start_date + day_num) * 86400 + ((hh : Int) * 3600 + (mm : Int) * 60) - tzOffset

/-- `random_time(start_date, start_day_num, start_time, end_day_num, end_time, tz)`.
`r` is the value produced by `randint(0, interval_length)`: it only exists when
`0 ≤ r ≤ interval_length` (and `randint` raises when the interval length is
negative), which the `if` guard models; parse failures of the HH:MM strings
raise in Python and give `none` here. -/
def random_time (start_date start_day_num : Int) (start_time : String)
    (end_day_num : Int) (end_time : String) (tzOffset : Int) (r : Nat) : Option Int :=
  match parseHHMM start_time, parseHHMM end_time with
  | some (sh, sm), some (eh, em) =>
    let s := interval_ts start_date start_day_num sh sm tzOffset
    let e := interval_ts start_date end_day_num eh em tzOffset
    if 0 ≤ e - s && (r : Int) ≤ e - s then some (s + (r : Int)) else none
  | _, _ => none

/-! ## models.py: record types

Only the columns the verified claims touch are carried.  Boolean columns are
`Bool`, nullable columns are `Option`, `Interval` columns are seconds. -/

/-- One window of a `PingTemplate.schedule` JSONB entry. -/
structure ScheduleWindow where
  start_day_num : Int
  start_time : String
  end_day_num : Int
  end_time : String
deriving DecidableEq, Repr

/-- models.py `User`. -/
structure User where
  id : Nat
  email : String
  deleted_at : Option Int
deriving DecidableEq, Repr

/-- models.py `Study`. -/
structure Study where
  id : Nat
  code : String
  deleted_at : Option Int
deriving DecidableEq, Repr

/-- models.py `UserStudy`. -/
structure UserStudy where
  id : Nat
  user_id : Nat
  study_id : Nat
  role : String
  deleted_at : Option Int
deriving DecidableEq, Repr

/-- models.py `Enrollment`. -/
structure Enrollment where
  id : Nat
  telegram_id : Option String
  telegram_link_code : Option String
  telegram_link_code_expire_ts : Option Int
  telegram_link_code_used : Bool
  tz : String
  study_id : Nat
  study_pid : String
  enrolled : Bool
  start_date : Int
  deleted_at : Option Int
deriving DecidableEq, Repr

/-- models.py `PingTemplate`. -/
structure PingTemplate where
  id : Nat
  study_id : Nat
  url : Option String
  reminder_latency : Option Int
  expire_latency : Option Int
  schedule : List ScheduleWindow
  deleted_at : Option Int
deriving DecidableEq, Repr

/-- models.py `Ping`, extended with the delivery-tracking columns
(`sent_ts`, `reminder_sent_ts`, `first_clicked_ts`, `deleted_at`) that
crud.py queries. -/
structure Ping where
  id : Nat
  study_id : Nat
  ping_template_id : Nat
  enrollment_id : Nat
  scheduled_ts : Int
  expire_ts : Option Int
  reminder_ts : Option Int
  ping_sent : Bool
  reminder_sent : Bool
  sent_ts : Option Int
  reminder_sent_ts : Option Int
  first_clicked_ts : Option Int
  day_num : Int
  url : Option String
  deleted_at : Option Int
deriving DecidableEq, Repr

/-- models.py `Support` (present in the version crud.py imports). -/
structure Support where
  id : Nat
  deleted_at : Option Int
deriving DecidableEq, Repr

/-- The database: one list per table. -/
structure DB where
  users : List User
  studies : List Study
  user_studies : List UserStudy
  enrollments : List Enrollment
  ping_templates : List PingTemplate
  pings : List Ping
  supports : List Support
deriving DecidableEq, Repr

/-! ## crud.py: reads -/

/-- crud.py `include_deleted_records`: keep a row when `include_deleted` is
set or its `deleted_at` is null. -/
def include_deleted_records (include_deleted : Bool) (deleted_at : Option Int) : Bool :=
  include_deleted || deleted_at.isNone

/-- Mutation of the object returned by a `.first()`-style lookup: replace the
first element satisfying `p`. -/
def updateFirst (p : α → Bool) (f : α → α) : List α → List α
  | [] => []
  | x :: xs => if p x then f x :: xs else x :: updateFirst p f xs

/-- crud.py `get_user_by_id`. -/
def get_user_by_id (db : DB) (user_id : Nat) (include_deleted : Bool) : Option User :=
  db.users.find? (fun u => u.id == user_id && include_deleted_records include_deleted u.deleted_at)

/-- crud.py `get_study_by_id`. -/
def get_study_by_id (db : DB) (study_id : Nat) (include_deleted : Bool) : Option Study :=
  db.studies.find? (fun s => s.id == study_id && include_deleted_records include_deleted s.deleted_at)

/-- crud.py `get_user_study` (lookup by the (user_id, study_id) pair). -/
def get_user_study (db : DB) (user_id study_id : Nat) (include_deleted : Bool) : Option UserStudy :=
  db.user_studies.find?
    (fun us => us.user_id == user_id && us.study_id == study_id
      && include_deleted_records include_deleted us.deleted_at)

/-- crud.py `get_enrollment_by_id`. -/
def get_enrollment_by_id (db : DB) (enrollment_id : Nat) (include_deleted : Bool) :
    Option Enrollment :=
  db.enrollments.find?
    (fun e => e.id == enrollment_id && include_deleted_records include_deleted e.deleted_at)

/-- crud.py `get_enrollments_by_study_id`. -/
def get_enrollments_by_study_id (db : DB) (study_id : Nat) (include_deleted : Bool) :
    List Enrollment :=
  db.enrollments.filter
    (fun e => e.study_id == study_id && include_deleted_records include_deleted e.deleted_at)

/-- crud.py `get_ping_template_by_id`. -/
def get_ping_template_by_id (db : DB) (template_id : Nat) (include_deleted : Bool) :
    Option PingTemplate :=
  db.ping_templates.find?
    (fun pt => pt.id == template_id && include_deleted_records include_deleted pt.deleted_at)

/-- crud.py `get_ping_templates_by_study_id`. -/
def get_ping_templates_by_study_id (db : DB) (study_id : Nat) (include_deleted : Bool) :
    List PingTemplate :=
  db.ping_templates.filter
    (fun pt => pt.study_id == study_id && include_deleted_records include_deleted pt.deleted_at)

/-- crud.py `get_ping_by_id`. -/
def get_ping_by_id (db : DB) (ping_id : Nat) (include_deleted : Bool) : Option Ping :=
  db.pings.find?
    (fun p => p.id == ping_id && include_deleted_records include_deleted p.deleted_at)

/-- crud.py `get_pings_by_enrollment_id`. -/
def get_pings_by_enrollment_id (db : DB) (enrollment_id : Nat) (include_deleted : Bool) :
    List Ping :=
  db.pings.filter
    (fun p => p.enrollment_id == enrollment_id && include_deleted_records include_deleted p.deleted_at)

/-- crud.py `get_pings_by_study_id`: pings joined to their enrollment, filtered
on `Enrollment.study_id` (the deleted-filter applies to the Ping). -/
def get_pings_by_study_id (db : DB) (study_id : Nat) (include_deleted : Bool) : List Ping :=
  db.pings.filter
    (fun p => db.enrollments.any (fun e => e.id == p.enrollment_id && e.study_id == study_id)
      && include_deleted_records include_deleted p.deleted_at)

/-- crud.py `get_users_for_study`: users joined through `UserStudy` on the
study (the join places no condition on `UserStudy.deleted_at`; the
deleted-filter applies to the User). -/
def get_users_for_study (db : DB) (study_id : Nat) (include_deleted : Bool) : List User :=
  db.users.filter
    (fun u => db.user_studies.any (fun us => us.user_id == u.id && us.study_id == study_id)
      && include_deleted_records include_deleted u.deleted_at)

/-- crud.py `get_studies_for_user`: studies joined through `UserStudy` on the
user (the deleted-filter applies to the Study). -/
def get_studies_for_user (db : DB) (user_id : Nat) (include_deleted : Bool) : List Study :=
  db.studies.filter
    (fun s => db.user_studies.any (fun us => us.study_id == s.id && us.user_id == user_id)
      && include_deleted_records include_deleted s.deleted_at)

/-- crud.py `get_support_by_id`. -/
def get_support_by_id (db : DB) (support_id : Nat) (include_deleted : Bool) : Option Support :=
  db.supports.find?
    (fun s => s.id == support_id && include_deleted_records include_deleted s.deleted_at)

/-- crud.py `get_pings_to_send(session, now)`: the where-clause of the
due-ping query, with its three inner joins rendered as existence of the
matching parent rows. `acceptable_delay_ts` is `now - timedelta(minutes=15)`. -/
def get_pings_to_send (db : DB) (now : Int) : List Ping :=
  let acceptable_delay_ts := now - 15 * 60
  db.pings.filter (fun p =>
    db.enrollments.any (fun e => e.id == p.enrollment_id
      && e.deleted_at.isNone && e.enrolled)
    && db.studies.any (fun s => s.id == p.study_id && s.deleted_at.isNone)
    && db.ping_templates.any (fun pt => pt.id == p.ping_template_id && pt.deleted_at.isNone)
    && p.sent_ts.isNone
    && decide (p.scheduled_ts ≤ now)
    && decide (acceptable_delay_ts ≤ p.scheduled_ts)
    && (match p.expire_ts with
        | none => true
        | some x => decide (now < x))
    && p.deleted_at.isNone)

/-- crud.py `get_pings_for_reminder(session, now)`.  A null `reminder_ts`
fails the SQL comparison `Ping.reminder_ts <= now`, excluding the row. -/
def get_pings_for_reminder (db : DB) (now : Int) : List Ping :=
  db.pings.filter (fun p =>
    db.enrollments.any (fun e => e.id == p.enrollment_id
      && e.deleted_at.isNone && e.enrolled)
    && db.studies.any (fun s => s.id == p.study_id && s.deleted_at.isNone)
    && db.ping_templates.any (fun pt => pt.id == p.ping_template_id && pt.deleted_at.isNone)
    && !p.sent_ts.isNone
    && p.reminder_sent_ts.isNone
    && (match p.reminder_ts with
        | none => false
        | some rt => decide (rt ≤ now))
    && (match p.expire_ts with
        | none => true
        | some x => decide (now < x))
    && p.first_clicked_ts.isNone
    && p.deleted_at.isNone)

/-- The effect of `.with_for_update(skip_locked=True)`: rows whose lock is
held by another transaction are skipped, and returned rows are locked by the
caller.  `locked` is the set of ping ids locked by other concurrent callers;
the result pairs the claimed rows with the lock set afterwards. -/
def get_pings_to_send_locked (db : DB) (now : Int) (locked : List Nat) :
    List Ping × List Nat :=
  let res := (get_pings_to_send db now).filter (fun p => !(locked.contains p.id))
  (res, locked ++ res.map Ping.id)

/-- `get_pings_for_reminder` under the same skip-locked semantics. -/
def get_pings_for_reminder_locked (db : DB) (now : Int) (locked : List Nat) :
    List Ping × List Nat :=
  let res := (get_pings_for_reminder db now).filter (fun p => !(locked.contains p.id))
  (res, locked ++ res.map Ping.id)

/-! ## crud.py: soft deletes

Each Python soft delete fetches ORM objects (`include_deleted=True` unless
noted) and assigns `obj.deleted_at = datetime.now(timezone.utc)`; the
embedding updates the first matching list element for each fetched object,
`now` standing for the wall clock. -/

/-- `user.deleted_at = now` for the user found by id. -/
def markUserDeleted (uid : Nat) (now : Int) (xs : List User) : List User :=
  updateFirst (fun u => u.id == uid) (fun u => { u with deleted_at := some now }) xs

/-- `study.deleted_at = now` for the study found by id. -/
def markStudyDeleted (sid : Nat) (now : Int) (xs : List Study) : List Study :=
  updateFirst (fun s => s.id == sid) (fun s => { s with deleted_at := some now }) xs

/-- `enrollment.deleted_at = now` for the enrollment found by id. -/
def markEnrollmentDeleted (eid : Nat) (now : Int) (xs : List Enrollment) : List Enrollment :=
  updateFirst (fun e => e.id == eid) (fun e => { e with deleted_at := some now }) xs

/-- `pt.deleted_at = now` for the ping template found by id. -/
def markPingTemplateDeleted (ptid : Nat) (now : Int) (xs : List PingTemplate) :
    List PingTemplate :=
  updateFirst (fun pt => pt.id == ptid) (fun pt => { pt with deleted_at := some now }) xs

/-- `ping.deleted_at = now` for the ping found by id. -/
def markPingDeleted (pid : Nat) (now : Int) (xs : List Ping) : List Ping :=
  updateFirst (fun p => p.id == pid) (fun p => { p with deleted_at := some now }) xs

/-- `user_study.deleted_at = now` for the link found by
`get_user_study(..., include_deleted=True)`. -/
def markUserStudyDeleted (uid sid : Nat) (now : Int) (xs : List UserStudy) : List UserStudy :=
  updateFirst (fun us => us.user_id == uid && us.study_id == sid)
    (fun us => { us with deleted_at := some now }) xs

/-- crud.py `soft_delete_user`: mark the user, then mark the user-study link
of each study the user is linked to. -/
def soft_delete_user (db : DB) (user_id : Nat) (now : Int) : Bool × DB :=
  match get_user_by_id db user_id true with
  | none => (false, db)
  | some _ =>
    let studies := get_studies_for_user db user_id true
    (true, { db with
      users := markUserDeleted user_id now db.users,
      user_studies :=
        studies.foldl (fun acc s => markUserStudyDeleted user_id s.id now acc) db.user_studies })

/-- crud.py `soft_delete_study`: the study plus every related enrollment,
ping (joined through the enrollment), ping template, and user-study link.
All related records are fetched before the existence check, so a missing
study changes nothing. -/
def soft_delete_study (db : DB) (study_id : Nat) (now : Int) : Bool × DB :=
  let enrollments := get_enrollments_by_study_id db study_id true
  let pings := get_pings_by_study_id db study_id true
  let ping_templates := get_ping_templates_by_study_id db study_id true
  let users := get_users_for_study db study_id true
  match get_study_by_id db study_id true with
  | none => (false, db)
  | some _ =>
    (true, { db with
      studies := markStudyDeleted study_id now db.studies,
      enrollments :=
        enrollments.foldl (fun acc e => markEnrollmentDeleted e.id now acc) db.enrollments,
      pings := pings.foldl (fun acc p => markPingDeleted p.id now acc) db.pings,
      ping_templates :=
        ping_templates.foldl (fun acc pt => markPingTemplateDeleted pt.id now acc)
          db.ping_templates,
      user_studies :=
        users.foldl (fun acc u => markUserStudyDeleted u.id study_id now acc) db.user_studies })

/-- crud.py `soft_delete_enrollment`: the enrollment plus each of its pings;
pings are fetched before the existence check. -/
def soft_delete_enrollment (db : DB) (enrollment_id : Nat) (now : Int) : Bool × DB :=
  let pings := get_pings_by_enrollment_id db enrollment_id true
  match get_enrollment_by_id db enrollment_id true with
  | none => (false, db)
  | some _ =>
    (true, { db with
      enrollments := markEnrollmentDeleted enrollment_id now db.enrollments,
      pings := pings.foldl (fun acc p => markPingDeleted p.id now acc) db.pings })

/-- crud.py `soft_delete_ping_template`: the template plus each of its pings. -/
def soft_delete_ping_template (db : DB) (template_id : Nat) (now : Int) : Bool × DB :=
  let pings := db.pings.filter
    (fun p => p.ping_template_id == template_id && include_deleted_records true p.deleted_at)
  match get_ping_template_by_id db template_id true with
  | none => (false, db)
  | some _ =>
    (true, { db with
      ping_templates := markPingTemplateDeleted template_id now db.ping_templates,
      pings := pings.foldl (fun acc p => markPingDeleted p.id now acc) db.pings })

/-- crud.py `soft_delete_ping`. -/
def soft_delete_ping (db : DB) (ping_id : Nat) (now : Int) : Bool × DB :=
  match get_ping_by_id db ping_id true with
  | none => (false, db)
  | some _ => (true, { db with pings := markPingDeleted ping_id now db.pings })

/-- crud.py `soft_delete_user_study`: the lookup uses
`include_deleted=False`, so an already-deleted link is reported missing. -/
def soft_delete_user_study (db : DB) (user_id study_id : Nat) (now : Int) : Bool × DB :=
  match get_user_study db user_id study_id false with
  | none => (false, db)
  | some _ =>
    (true, { db with
      user_studies :=
        updateFirst
          (fun us => us.user_id == user_id && us.study_id == study_id
            && include_deleted_records false us.deleted_at)
          (fun us => { us with deleted_at := some now }) db.user_studies })

/-- crud.py `soft_delete_support_query`. -/
def soft_delete_support_query (db : DB) (support_id : Nat) (now : Int) : Bool × DB :=
  match get_support_by_id db support_id true with
  | none => (false, db)
  | some _ =>
    (true, { db with
      supports :=
        updateFirst (fun s => s.id == support_id)
          (fun s => { s with deleted_at := some now }) db.supports })

/-! ## participant_facing.py: make_pings and study_signup -/

/-- The next autoincrement value for a list of row ids. -/
def nextId (ids : List Nat) : Nat := ids.foldr (fun i m => max (i + 1) m) 0

/-- Autoincrement for the pings table. -/
def next_ping_id (db : DB) : Nat := nextId (db.pings.map Ping.id)

/-- Autoincrement for the enrollments table. -/
def next_enrollment_id (db : DB) : Nat := nextId (db.enrollments.map Enrollment.id)

/-- One iteration of the window loop of `make_pings`: compute the random
delivery time and build the Ping dict; a `None` from `random_time` or a null
latency raises (returns `none`).  `k` is the position of the window in the
flattened loop (used only for the autoincrement id). -/
def build_ping (db : DB) (enrollment_id study_id : Nat) (enrollment : Enrollment)
    (tzdb : String → Option Int) (draw : Nat → Nat)
    (kjob : Nat × PingTemplate × ScheduleWindow) : Option Ping :=
  match tzdb enrollment.tz with
  | none => none
  | some tzo =>
  match random_time enrollment.start_date kjob.2.2.start_day_num kjob.2.2.start_time
      kjob.2.2.end_day_num kjob.2.2.end_time tzo (draw kjob.1) with
  | none => none
  | some t =>
  match kjob.2.1.expire_latency with
  | none => none
  | some ex =>
  match kjob.2.1.reminder_latency with
  | none => none
  | some rem =>
  some ({ id := next_ping_id db + kjob.1,
          study_id := study_id,
          ping_template_id := kjob.2.1.id,
          enrollment_id := enrollment_id,
          scheduled_ts := t,
          expire_ts := some (t + ex),
          reminder_ts := some (t + rem),
          ping_sent := false,
          reminder_sent := false,
          sent_ts := none,
          reminder_sent_ts := none,
          first_clicked_ts := none,
          day_num := kjob.2.2.start_day_num,
          url := kjob.2.1.url,
          deleted_at := none } : Ping)

/-- `make_pings(enrollment_id, study_id)`.

`tzdb` resolves a timezone name to its fixed UTC offset (`pytz.timezone`;
unknown names make `random_time` return `None`, which the subsequent
`ping_time + latency` turns into an exception). `draw k` is the `randint`
draw for the `k`-th window overall.  Any exception inside the loop rolls the
transaction back and returns `None`: the embedding returns `none` and no
partial state.  On success the new pings are committed and returned. -/
def make_pings (db : DB) (enrollment_id study_id : Nat)
    (tzdb : String → Option Int) (draw : Nat → Nat) : Option (List Ping × DB) :=
  match db.enrollments.find? (fun e => e.id == enrollment_id) with
  | none => none
  | some enrollment =>
    match db.studies.find? (fun s => s.id == study_id) with
    | none => none
    | some _ =>
      let ping_templates := db.ping_templates.filter (fun pt => pt.study_id == study_id)
      if ping_templates.isEmpty then none
      else
        let jobs := ping_templates.flatMap (fun pt => pt.schedule.map (fun w => (pt, w)))
        match jobs.enum.mapM (build_ping db enrollment_id study_id enrollment tzdb draw) with
        | none => none
        | some newPings => some (newPings, { db with pings := db.pings ++ newPings })

/-- The three exits of the `/signup` route. -/
inductive SignupResponse where
  | invalidCode
  | serverError
  | enrolled (telegram_link_code : String) (participant_id : Nat) (study_id : Nat)
deriving DecidableEq, Repr

/-- `study_signup()`.

`codes` is the stream of candidates `generate_non_confusable_code(length=6)`
produces for the link-code loop; the loop takes the first one no enrollment
already holds (`none` models the loop never finding one).  `today` is
`datetime.now().date()`, `link_code_expire_ts` is
`now + TELEGRAM_LINK_CODE_EXPIRY_DAYS`.  Note that the enrollment is
committed before `make_pings` runs, so it persists even when ping creation
then fails with a 500. -/
def study_signup (db : DB) (signup_code study_pid tz : String) (codes : List String)
    (today : Int) (link_code_expire_ts : Int) (tzdb : String → Option Int)
    (draw : Nat → Nat) : Option (SignupResponse × DB) :=
  match db.studies.find? (fun s => s.code == signup_code) with
  | none => some (SignupResponse.invalidCode, db)
  | some study =>
    match codes.find? (fun c => !(db.enrollments.any (fun e => e.telegram_link_code == some c))) with
    | none => none
    | some telegram_link_code =>
      let enrollment : Enrollment :=
        { id := next_enrollment_id db,
          telegram_id := none,
          telegram_link_code := some telegram_link_code,
          telegram_link_code_expire_ts := some link_code_expire_ts,
          telegram_link_code_used := false,
          tz := tz,
          study_id := study.id,
          study_pid := study_pid,
          enrolled := true,
          start_date := today,
          deleted_at := none }
      let db1 := { db with enrollments := db.enrollments ++ [enrollment] }
      match make_pings db1 enrollment.id study.id tzdb draw with
      | none => some (SignupResponse.serverError, db1)
      | some (pings, db2) =>
        if pings.isEmpty then some (SignupResponse.serverError, db2)
        else some (SignupResponse.enrolled telegram_link_code enrollment.id study.id, db2)

/-! ## bot.py: link_telegram_id -/

/-- The five exits of the `/link_telegram_id` route. -/
inductive LinkResult where
  | missingTelegramId
  | missingLinkCode
  | invalidCode
  | serverError
  | ok
deriving DecidableEq, Repr

/-- A request value that `if not x:` treats as absent. -/
def isBlank (o : Option String) : Bool :=
  match o with
  | none => true
  | some s => s.isEmpty

/-- The successful mutation of `link_telegram_id`: store the telegram id on
the enrollment and mark the link code used. -/
def link_update (tid : Option String) (e : Enrollment) : Enrollment :=
  { e with telegram_id := tid, telegram_link_code_used := true }

/-- `link_telegram_id()`.  A null `telegram_link_code_expire_ts` makes the
`<` comparison raise `TypeError`, caught as a 500 with rollback.  On success
the enrollment found by the code gets `telegram_id` stored and the code
marked used. -/
def link_telegram_id (db : DB) (telegram_id telegram_link_code : Option String)
    (now : Int) : LinkResult × DB :=
  if isBlank telegram_id then (LinkResult.missingTelegramId, db)
  else if isBlank telegram_link_code then (LinkResult.missingLinkCode, db)
  else
    match db.enrollments.find? (fun e => e.telegram_link_code == telegram_link_code) with
    | none => (LinkResult.invalidCode, db)
    | some enrollment =>
      if enrollment.telegram_link_code_used then (LinkResult.invalidCode, db)
      else
        match enrollment.telegram_link_code_expire_ts with
        | none => (LinkResult.serverError, db)
        | some exp =>
          if exp < now then (LinkResult.invalidCode, db)
          else
            let enrollments :=
              updateFirst (fun e => e.telegram_link_code == telegram_link_code)
                (link_update telegram_id) db.enrollments
            (LinkResult.ok, { db with enrollments := enrollments })

/-! ## Concrete sample data (used by the closed-instance theorems) -/

/-- A sample researcher. -/
def wUser : User := { id := 1, email := ("ux"), deleted_at := none }

/-- A sample study with signup code S1. -/
def wStudy : Study := { id := 1, code := ("S1"), deleted_at := none }

/-- A one-hour window on day 1. -/
def wWindow : ScheduleWindow :=
  { start_day_num := 1, start_time := ("09:00"), end_day_num := 1, end_time := ("10:00") }

/-- A sample ping template with one window and one-hour/two-hour latencies. -/
def wTemplate : PingTemplate :=
  { id := 1, study_id := 1, url := none, reminder_latency := some 3600,
    expire_latency := some 7200, schedule := [wWindow], deleted_at := none }

/-- A sample active enrollment holding the unexpired, unused link code abc. -/
def wEnrollment : Enrollment :=
  { id := 1, telegram_id := none, telegram_link_code := some ("abc"),
    telegram_link_code_expire_ts := some 100, telegram_link_code_used := false,
    tz := ("UTC"), study_id := 1, study_pid := ("p1"), enrolled := true,
    start_date := 0, deleted_at := none }

/-- A sample user-study link. -/
def wUserStudy : UserStudy :=
  { id := 1, user_id := 1, study_id := 1, role := ("owner"), deleted_at := none }

/-- A sample support query. -/
def wSupport : Support := { id := 1, deleted_at := none }

/-- A sample ping, parametrised by id, schedule, sent and reminder stamps. -/
def wPing (i : Nat) (sch : Int) (sent reminder : Option Int) : Ping :=
  { id := i, study_id := 1, ping_template_id := 1, enrollment_id := 1,
    scheduled_ts := sch, expire_ts := none, reminder_ts := reminder,
    ping_sent := false, reminder_sent := false, sent_ts := sent,
    reminder_sent_ts := none, first_clicked_ts := none, day_num := 1,
    url := none, deleted_at := none }

/-- One row of every table. -/
def wDB : DB :=
  { users := [wUser], studies := [wStudy], user_studies := [wUserStudy],
    enrollments := [wEnrollment], ping_templates := [wTemplate], pings := [],
    supports := [wSupport] }

/-- The ping `make_pings` creates on `wDB` with zero offset and zero draw. -/
def wPingNew : Ping :=
  { id := 0, study_id := 1, ping_template_id := 1, enrollment_id := 1,
    scheduled_ts := 118800, expire_ts := some 126000, reminder_ts := some 122400,
    ping_sent := false, reminder_sent := false, sent_ts := none,
    reminder_sent_ts := none, first_clicked_ts := none, day_num := 1,
    url := none, deleted_at := none }

/-- `wDB` after that `make_pings` run. -/
def wDBafter : DB := { wDB with pings := [wPingNew] }

/-- `wDB` with one existing ping, for the soft-delete runs. -/
def wDB5 : DB := { wDB with pings := [wPing 1 1000 none none] }

/-- Two unsent due pings and two sent reminder-due pings, for the
skip-locked runs. -/
def wDB6 : DB :=
  { users := [], studies := [wStudy], user_studies := [],
    enrollments := [wEnrollment], ping_templates := [wTemplate],
    pings := [wPing 1 1000 none none, wPing 2 2000 none none,
      wPing 3 0 (some 10) (some 1000), wPing 4 0 (some 10) (some 2000)],
    supports := [] }

/-- A bare database with one study, for the signup run. -/
def wDB7 : DB :=
  { users := [], studies := [wStudy], user_studies := [], enrollments := [],
    ping_templates := [], pings := [], supports := [] }

/-- The enrollment the signup run creates on `wDB7`. -/
def wEnr7 : Enrollment :=
  { id := 0, telegram_id := none, telegram_link_code := some ("zzz"),
    telegram_link_code_expire_ts := some 100, telegram_link_code_used := false,
    tz := ("UTC"), study_id := 1, study_pid := ("pid"), enrolled := true,
    start_date := 5, deleted_at := none }

/-- `wDB7` after the signup run. -/
def wDB7b : DB := { wDB7 with enrollments := [wEnr7] }

/-- A database with just the linkable enrollment, for the telegram-link
runs. -/
def wDB8 : DB :=
  { users := [], studies := [], user_studies := [], enrollments := [wEnrollment],
    ping_templates := [], pings := [], supports := [] }

/-! ## Theorems -/

/-- C10: for every length `n` and every sequence of draws,
`generate_non_confusable_code` returns exactly `n` characters, each an ASCII
letter or digit and none of the confusable characters l, o, I, O, 0, 1; in
particular the default call gives 8 characters and the signup flow's calls
with length 6 give 6 characters. -/
theorem generate_non_confusable_code_spec :
    ∀ (n : Nat) (pick : Nat → Nat),
      (generate_non_confusable_code pick n).length = n ∧
      (∀ c ∈ generate_non_confusable_code pick n,
        (c.isAlpha = true ∨ c.isDigit = true) ∧
        c ∉ (['l', 'o', 'I', 'O', '0', '1'] : List Char)) ∧
      (generate_non_confusable_code pick).length = 8 ∧
      (generate_non_confusable_code pick 6).length = 6 := by
  intro n pick
  have hlen : ∀ m : Nat, (generate_non_confusable_code pick m).length = m := by
    intro m
    simp [generate_non_confusable_code]
  refine ⟨hlen n, ?_, hlen 8, hlen 6⟩
  intro c hc
  have hpool : ∀ c ∈ non_confusable_chars,
      (c.isAlpha = true ∨ c.isDigit = true) ∧
      c ∉ (['l', 'o', 'I', 'O', '0', '1'] : List Char) := by decide
  apply hpool
  simp only [generate_non_confusable_code, List.mem_map, List.mem_range] at hc
  obtain ⟨i, _, rfl⟩ := hc
  have hpos : 0 < non_confusable_chars.length := by decide
  have hlt : pick i % non_confusable_chars.length < non_confusable_chars.length :=
    Nat.mod_lt _ hpos
  rw [List.getD_eq_getElem _ _ hlt]
  exact List.getElem_mem hlt

/-- C1: when both HH:MM strings parse and the window is not inverted, the
timestamps `random_time` can return are exactly the whole-second instants of
the closed interval from `start_date + start_day_num days + start_time` to
`start_date + end_day_num days + end_time` in the given timezone, and each
such instant comes from exactly one `randint` draw — so a uniform draw gives
a uniform timestamp, always inside the closed interval. -/
theorem random_time_uniform_in_interval :
    ∀ (start_date start_day_num end_day_num tzOffset : Int)
      (start_time end_time : String) (sh sm eh em : Nat),
      parseHHMM start_time = some (sh, sm) →
      parseHHMM end_time = some (eh, em) →
      interval_ts start_date start_day_num sh sm tzOffset ≤
        interval_ts start_date end_day_num eh em tzOffset →
      (∀ t : Int,
        (∃ r : Nat,
          random_time start_date start_day_num start_time end_day_num end_time tzOffset r
            = some t) ↔
        (interval_ts start_date start_day_num sh sm tzOffset ≤ t ∧
          t ≤ interval_ts start_date end_day_num eh em tzOffset)) ∧
      (∀ (r1 r2 : Nat) (t : Int),
        random_time start_date start_day_num start_time end_day_num end_time tzOffset r1
          = some t →
        random_time start_date start_day_num start_time end_day_num end_time tzOffset r2
          = some t →
        r1 = r2) := by
  intro start_date start_day_num end_day_num tzOffset start_time end_time sh sm eh em h1 h2 hle
  set s := interval_ts start_date start_day_num sh sm tzOffset with hs
  set e := interval_ts start_date end_day_num eh em tzOffset with he
  have hval : ∀ (r : Nat) (t : Int),
      random_time start_date start_day_num start_time end_day_num end_time tzOffset r
        = some t ↔ ((r : Int) ≤ e - s ∧ t = s + (r : Int)) := by
    intro r t
    simp only [random_time, h1, h2]
    rw [← hs, ← he]
    by_cases hr : (r : Int) ≤ e - s
    · have hguard : (0 ≤ e - s && (r : Int) ≤ e - s) = true := by
        simp [decide_eq_true_eq]
        omega
      rw [hguard]
      simp [hr, eq_comm]
    · have hguard : (0 ≤ e - s && (r : Int) ≤ e - s) = false := by
        simp [decide_eq_true_eq]
        omega
      rw [hguard]
      simp [hr]
  constructor
  · intro t
    constructor
    · rintro ⟨r, hrt⟩
      rw [hval] at hrt
      omega
    · rintro ⟨hst, hte⟩
      refine ⟨(t - s).toNat, ?_⟩
      rw [hval]
      omega
  · intro r1 r2 t hrt1 hrt2
    rw [hval] at hrt1 hrt2
    omega

/-- Witness for C1 at a concrete window: day 1, 09:00 to 10:30, offset
28800 s. -/
theorem random_time_uniform_in_interval_witness :
    (∀ t : Int,
      (∃ r : Nat, random_time 0 1 ("09:00") 1 ("10:30") 28800 r = some t) ↔
      (interval_ts 0 1 9 0 28800 ≤ t ∧ t ≤ interval_ts 0 1 10 30 28800)) ∧
    (∀ (r1 r2 : Nat) (t : Int),
      random_time 0 1 ("09:00") 1 ("10:30") 28800 r1 = some t →
      random_time 0 1 ("09:00") 1 ("10:30") 28800 r2 = some t →
      r1 = r2) :=
  random_time_uniform_in_interval 0 1 1 28800 ("09:00") ("10:30") 9 0 10 30
    (by decide) (by decide) (by decide)

/-- C2: `get_pings_to_send(session, now)` returns exactly the pings that are
unsent, scheduled no later than `now` and no earlier than `now` minus the
15-minute tolerance, unexpired (null or strictly future `expire_ts`), not
soft-deleted, and joined to a non-deleted template, a non-deleted study and a
non-deleted enrollment with `enrolled` true; every other ping is excluded. -/
theorem get_pings_to_send_spec :
    ∀ (db : DB) (now : Int) (p : Ping),
      p ∈ get_pings_to_send db now ↔
        p ∈ db.pings ∧
        p.sent_ts = none ∧
        p.scheduled_ts ≤ now ∧
        now - 15 * 60 ≤ p.scheduled_ts ∧
        (p.expire_ts = none ∨ ∃ x, p.expire_ts = some x ∧ now < x) ∧
        p.deleted_at = none ∧
        (∃ pt ∈ db.ping_templates, pt.id = p.ping_template_id ∧ pt.deleted_at = none) ∧
        (∃ s ∈ db.studies, s.id = p.study_id ∧ s.deleted_at = none) ∧
        (∃ e ∈ db.enrollments,
          e.id = p.enrollment_id ∧ e.deleted_at = none ∧ e.enrolled = true) := by
  intro db now p
  cases hx : p.expire_ts with
  | none =>
    simp only [get_pings_to_send, List.mem_filter, List.any_eq_true, Bool.and_eq_true,
      beq_iff_eq, Option.isNone_iff_eq_none, decide_eq_true_eq, hx]
    tauto
  | some x =>
    simp only [get_pings_to_send, List.mem_filter, List.any_eq_true, Bool.and_eq_true,
      beq_iff_eq, Option.isNone_iff_eq_none, decide_eq_true_eq, hx, Option.some.injEq,
      reduceCtorEq, false_or, exists_eq_left, exists_eq_left']
    tauto

/-- C6: under the skip-locked semantics, a second caller that runs while the
first caller's locks are held never receives a ping with the id of a ping
already claimed by the first caller, for `get_pings_to_send` and for
`get_pings_for_reminder`. -/
theorem skip_locked_no_double_claim :
    (∀ (db : DB) (l0 : List Nat) (now1 now2 : Int) (p q : Ping),
      p ∈ (get_pings_to_send_locked db now1 l0).1 →
      q ∈ (get_pings_to_send_locked db now2 (get_pings_to_send_locked db now1 l0).2).1 →
      p.id ≠ q.id) ∧
    (∀ (db : DB) (l0 : List Nat) (now1 now2 : Int) (p q : Ping),
      p ∈ (get_pings_for_reminder_locked db now1 l0).1 →
      q ∈ (get_pings_for_reminder_locked db now2 (get_pings_for_reminder_locked db now1 l0).2).1 →
      p.id ≠ q.id) := by
  have aux : ∀ (base1 base2 : List Ping) (l0 : List Nat) (p q : Ping),
      p ∈ base1.filter (fun r => !l0.contains r.id) →
      q ∈ base2.filter (fun r =>
        !((l0 ++ (base1.filter (fun r2 => !l0.contains r2.id)).map Ping.id).contains r.id)) →
      p.id ≠ q.id := by
    intro base1 base2 l0 p q hp hq heq
    rw [List.mem_filter] at hq
    have h2 := hq.2
    rw [Bool.not_eq_true'] at h2
    have hmem : q.id ∈ l0 ++ (base1.filter (fun r2 => !l0.contains r2.id)).map Ping.id := by
      rw [List.mem_append, List.mem_map]
      exact Or.inr ⟨p, hp, heq⟩
    rw [← List.elem_iff] at hmem
    have h4 : (true : Bool) = false := by
      rw [← hmem]
      exact h2
    simp at h4
  constructor <;>
  · intro db l0 now1 now2 p q hp hq
    exact aux _ _ l0 p q hp hq

/-- Helper: a successful `mapM` over `Option` keeps the length. -/
theorem optionMapM_length {α β : Type} (f : α → Option β) :
    ∀ (xs : List α) (ys : List β), xs.mapM f = some ys → ys.length = xs.length := by
  intro xs
  induction xs with
  | nil =>
    intro ys h
    simp only [List.mapM_nil, pure, Option.some.injEq] at h
    simp [← h]
  | cons x xs ih =>
    intro ys h
    rw [List.mapM_cons] at h
    cases hfx : f x with
    | none => rw [hfx] at h; simp at h
    | some y =>
      rw [hfx] at h
      cases hrest : xs.mapM f with
      | none => rw [hrest] at h; simp at h
      | some ys2 =>
        rw [hrest] at h
        simp at h
        rw [← h]
        simp [ih ys2 hrest]

/-- Helper: every output of a successful `mapM` over `Option` comes from some
input. -/
theorem optionMapM_mem {α β : Type} (f : α → Option β) :
    ∀ (xs : List α) (ys : List β), xs.mapM f = some ys →
      ∀ y ∈ ys, ∃ x ∈ xs, f x = some y := by
  intro xs
  induction xs with
  | nil =>
    intro ys h
    simp only [List.mapM_nil, pure, Option.some.injEq] at h
    simp [← h]
  | cons x xs ih =>
    intro ys h y hy
    rw [List.mapM_cons] at h
    cases hfx : f x with
    | none => rw [hfx] at h; simp at h
    | some y0 =>
      rw [hfx] at h
      cases hrest : xs.mapM f with
      | none => rw [hrest] at h; simp at h
      | some ys2 =>
        rw [hrest] at h
        simp at h
        rw [← h] at hy
        rcases List.mem_cons.mp hy with hy | hy
        · exact ⟨x, List.mem_cons_self x xs, by rw [hfx, hy]⟩
        · obtain ⟨x2, hx2, hfx2⟩ := ih ys2 hrest y hy
          exact ⟨x2, List.mem_cons_of_mem x hx2, hfx2⟩

/-- Helper: a successful `build_ping` yields a pending ping with the
template's fixed offsets. -/
theorem build_ping_sound :
    ∀ (db : DB) (eid sid : Nat) (enrollment : Enrollment) (tzdb : String → Option Int)
      (draw : Nat → Nat) (kjob : Nat × PingTemplate × ScheduleWindow) (p : Ping),
      build_ping db eid sid enrollment tzdb draw kjob = some p →
      ∃ ex rem, kjob.2.1.expire_latency = some ex ∧ kjob.2.1.reminder_latency = some rem ∧
        p.ping_template_id = kjob.2.1.id ∧
        p.expire_ts = some (p.scheduled_ts + ex) ∧
        p.reminder_ts = some (p.scheduled_ts + rem) ∧
        p.ping_sent = false ∧ p.reminder_sent = false ∧
        p.enrollment_id = eid ∧ p.study_id = sid := by
  intro db eid sid enrollment tzdb draw kjob p h
  rw [build_ping] at h
  cases htz : tzdb enrollment.tz with
  | none => rw [htz] at h; simp at h
  | some tzo =>
    rw [htz] at h
    dsimp only at h
    cases hrt : random_time enrollment.start_date kjob.2.2.start_day_num kjob.2.2.start_time
        kjob.2.2.end_day_num kjob.2.2.end_time tzo (draw kjob.1) with
    | none => rw [hrt] at h; simp at h
    | some t =>
      rw [hrt] at h
      dsimp only at h
      cases hex : kjob.2.1.expire_latency with
      | none => rw [hex] at h; simp at h
      | some ex =>
        rw [hex] at h
        dsimp only at h
        cases hrem : kjob.2.1.reminder_latency with
        | none => rw [hrem] at h; simp at h
        | some rem =>
          rw [hrem] at h
          dsimp only at h
          simp only [Option.some.injEq] at h
          refine ⟨ex, rem, rfl, rfl, ?_⟩
          rw [← h]
          exact ⟨rfl, rfl, rfl, rfl, rfl, rfl, rfl⟩

/-- Helper: full characterization of a successful `make_pings` run: the
count of created pings, the committed state, and the shape of each created
ping. -/
theorem make_pings_sound :
    ∀ (db : DB) (eid sid : Nat) (tzdb : String → Option Int) (draw : Nat → Nat)
      (ps : List Ping) (db2 : DB),
      make_pings db eid sid tzdb draw = some (ps, db2) →
      ps.length =
        ((db.ping_templates.filter (fun pt => pt.study_id == sid)).map
          (fun pt => pt.schedule.length)).sum ∧
      db2 = { db with pings := db.pings ++ ps } ∧
      (∀ p ∈ ps, ∃ pt ∈ db.ping_templates, pt.study_id = sid ∧
        pt.id = p.ping_template_id ∧
        ∃ ex rem, pt.expire_latency = some ex ∧ pt.reminder_latency = some rem ∧
          p.expire_ts = some (p.scheduled_ts + ex) ∧
          p.reminder_ts = some (p.scheduled_ts + rem) ∧
          p.ping_sent = false ∧ p.reminder_sent = false ∧
          p.enrollment_id = eid ∧ p.study_id = sid) := by
  intro db eid sid tzdb draw ps db2 h
  simp only [make_pings] at h
  cases he : db.enrollments.find? (fun e => e.id == eid) with
  | none => rw [he] at h; simp at h
  | some enrollment =>
    rw [he] at h
    dsimp only at h
    cases hs : db.studies.find? (fun s => s.id == sid) with
    | none => rw [hs] at h; simp at h
    | some study =>
      rw [hs] at h
      dsimp only at h
      by_cases hne :
          (db.ping_templates.filter (fun pt => pt.study_id == sid)).isEmpty = true
      · rw [if_pos hne] at h; simp at h
      · rw [if_neg hne] at h
        cases hmap : ((db.ping_templates.filter (fun pt => pt.study_id == sid)).flatMap
            (fun pt => pt.schedule.map (fun w => (pt, w)))).enum.mapM
            (build_ping db eid sid enrollment tzdb draw) with
        | none => rw [hmap] at h; simp at h
        | some newPings =>
          rw [hmap] at h
          dsimp only at h
          simp only [Option.some.injEq, Prod.mk.injEq] at h
          obtain ⟨hps, hdb2⟩ := h
          subst hps
          refine ⟨?_, hdb2.symm, ?_⟩
          · rw [optionMapM_length _ _ _ hmap, List.enum_length, List.length_flatMap]
            congr 1
            apply List.map_congr_left
            intro a _
            simp [Function.comp]
          · intro p hp
            obtain ⟨kjob, hkmem, hkf⟩ := optionMapM_mem _ _ _ hmap p hp
            have hjob : kjob.2 ∈ (db.ping_templates.filter
                (fun pt2 => pt2.study_id == sid)).flatMap
                (fun pt2 => pt2.schedule.map (fun w2 => (pt2, w2))) := by
              obtain ⟨k, job⟩ := kjob
              have := List.mem_enum_iff_getElem?.mp hkmem
              exact List.getElem?_mem this
            rw [List.mem_flatMap] at hjob
            obtain ⟨pt2, hpt2, hw⟩ := hjob
            rw [List.mem_map] at hw
            obtain ⟨w2, hw2, hww⟩ := hw
            have hpteq : kjob.2.1 = pt2 := (congrArg Prod.fst hww).symm
            rw [List.mem_filter] at hpt2
            obtain ⟨ex, rem, hex, hrem, hshape⟩ :=
              build_ping_sound db eid sid enrollment tzdb draw kjob p hkf
            rw [hpteq] at hex hrem
            refine ⟨pt2, hpt2.1, by simpa using hpt2.2, ?_, ex, rem, hex, hrem, ?_⟩
            · rw [hshape.1, hpteq]
            · exact hshape.2

/-- C3: every successful `make_pings` call creates and persists exactly one
ping per schedule window of each ping template of the study, and every
created ping is a pending-delivery record (`ping_sent` and `reminder_sent`
false). -/
theorem make_pings_one_per_window :
    ∀ (db : DB) (eid sid : Nat) (tzdb : String → Option Int) (draw : Nat → Nat)
      (ps : List Ping) (db2 : DB),
      make_pings db eid sid tzdb draw = some (ps, db2) →
      ps.length =
        ((db.ping_templates.filter (fun pt => pt.study_id == sid)).map
          (fun pt => pt.schedule.length)).sum ∧
      db2.pings = db.pings ++ ps ∧
      ∀ p ∈ ps, p.ping_sent = false ∧ p.reminder_sent = false := by
  intro db eid sid tzdb draw ps db2 h
  obtain ⟨hlen, hdb2, hshape⟩ := make_pings_sound db eid sid tzdb draw ps db2 h
  refine ⟨hlen, by rw [hdb2], ?_⟩
  intro p hp
  obtain ⟨pt, _, _, _, ex, rem, _, _, _, _, hps, hrs, _, _⟩ := hshape p hp
  exact ⟨hps, hrs⟩

/-- C4: every ping created by `make_pings` has `expire_ts` equal to its
`scheduled_ts` plus the template's `expire_latency` and `reminder_ts` equal
to its `scheduled_ts` plus the template's `reminder_latency`. -/
theorem make_pings_fixed_offsets :
    ∀ (db : DB) (eid sid : Nat) (tzdb : String → Option Int) (draw : Nat → Nat)
      (ps : List Ping) (db2 : DB),
      make_pings db eid sid tzdb draw = some (ps, db2) →
      ∀ p ∈ ps, ∃ pt ∈ db.ping_templates, pt.id = p.ping_template_id ∧
        ∃ ex rem, pt.expire_latency = some ex ∧ pt.reminder_latency = some rem ∧
          p.expire_ts = some (p.scheduled_ts + ex) ∧
          p.reminder_ts = some (p.scheduled_ts + rem) := by
  intro db eid sid tzdb draw ps db2 h p hp
  obtain ⟨hlen, hdb2, hshape⟩ := make_pings_sound db eid sid tzdb draw ps db2 h
  obtain ⟨pt, hmem, hsid, hid, ex, rem, hex, hrem, hexp, hremts, _, _, _, _⟩ := hshape p hp
  exact ⟨pt, hmem, hid, ex, rem, hex, hrem, hexp, hremts⟩

/-- C7: a signup whose code matches no study answers not-found and creates
no enrollment; a signup whose code matches a study (and whose link-code loop
terminates) appends exactly one enrollment, registered in that study with
the submitted timezone, the submitted participant id, `enrolled` set, and
the signup day as start date. -/
theorem study_signup_spec :
    ∀ (db : DB) (signup_code study_pid tz : String) (codes : List String)
      (today link_exp : Int) (tzdb : String → Option Int) (draw : Nat → Nat),
      (db.studies.find? (fun s => s.code == signup_code) = none →
        study_signup db signup_code study_pid tz codes today link_exp tzdb draw
          = some (SignupResponse.invalidCode, db)) ∧
      (∀ (study : Study) (resp : SignupResponse) (db2 : DB),
        db.studies.find? (fun s => s.code == signup_code) = some study →
        study_signup db signup_code study_pid tz codes today link_exp tzdb draw
          = some (resp, db2) →
        ∃ e : Enrollment, db2.enrollments = db.enrollments ++ [e] ∧
          e.study_id = study.id ∧ e.tz = tz ∧ e.study_pid = study_pid ∧
          e.enrolled = true ∧ e.start_date = today) := by
  intro db signup_code study_pid tz codes today link_exp tzdb draw
  constructor
  · intro hnone
    simp only [study_signup, hnone]
  · intro study resp db2 hfind h
    simp only [study_signup] at h
    rw [hfind] at h
    dsimp only at h
    cases hcode : codes.find?
        (fun c => !(db.enrollments.any (fun e => e.telegram_link_code == some c))) with
    | none => rw [hcode] at h; simp at h
    | some c =>
      rw [hcode] at h
      dsimp only at h
      split at h
      · rename_i hmp
        simp only [Option.some.injEq, Prod.mk.injEq] at h
        obtain ⟨hresp, hdb2⟩ := h
        subst hdb2
        exact ⟨_, rfl, rfl, rfl, rfl, rfl, rfl⟩
      · rename_i pings db2m hmp
        obtain ⟨_, hdb2m, _⟩ := make_pings_sound _ _ _ _ _ _ _ hmp
        split at h <;>
        · simp only [Option.some.injEq, Prod.mk.injEq] at h
          obtain ⟨hresp, hdb2⟩ := h
          subst hdb2
          rw [hdb2m]
          exact ⟨_, rfl, rfl, rfl, rfl, rfl, rfl⟩

/-- Helper: a successful `find?` splits the list at the first hit. -/
theorem find?_decomp {α : Type} (p : α → Bool) :
    ∀ (xs : List α) (x : α), xs.find? p = some x →
      ∃ l1 l2, xs = l1 ++ x :: l2 ∧ (∀ y ∈ l1, p y = false) ∧ p x = true := by
  intro xs
  induction xs with
  | nil => intro x h; simp at h
  | cons a xs ih =>
    intro x h
    cases hpa : p a with
    | true =>
      rw [List.find?_cons_of_pos _ hpa] at h
      obtain rfl : a = x := by simpa using h
      exact ⟨[], xs, rfl, by simp, hpa⟩
    | false =>
      rw [List.find?_cons_of_neg _ (by simp [hpa])] at h
      obtain ⟨l1, l2, hxs, hl1, hx⟩ := ih x h
      refine ⟨a :: l1, l2, by rw [hxs]; rfl, ?_, hx⟩
      intro y hy
      rcases List.mem_cons.mp hy with rfl | hy
      · exact hpa
      · exact hl1 y hy

/-- Helper: `find?` on a list whose prefix fails `p` finds the first hit. -/
theorem find?_append_cons {α : Type} (p : α → Bool) :
    ∀ (l1 l2 : List α) (y : α), (∀ x ∈ l1, p x = false) → p y = true →
      (l1 ++ y :: l2).find? p = some y := by
  intro l1
  induction l1 with
  | nil => intro l2 y _ hy; simpa using List.find?_cons_of_pos _ hy
  | cons a l1 ih =>
    intro l2 y hl hy
    rw [List.cons_append, List.find?_cons_of_neg _ (by simp [hl a (by simp)])]
    exact ih l2 y (fun x hx => hl x (List.mem_cons_of_mem a hx)) hy

/-- Helper: `updateFirst` on a list whose prefix fails `p` rewrites the
first hit and nothing else. -/
theorem updateFirst_append_cons {α : Type} (p : α → Bool) (f : α → α) :
    ∀ (l1 l2 : List α) (y : α), (∀ x ∈ l1, p x = false) → p y = true →
      updateFirst p f (l1 ++ y :: l2) = l1 ++ f y :: l2 := by
  intro l1
  induction l1 with
  | nil => intro l2 y _ hy; simp [updateFirst, hy]
  | cons a l1 ih =>
    intro l2 y hl hy
    rw [List.cons_append, updateFirst]
    rw [if_neg (by simp [hl a (by simp)])]
    rw [ih l2 y (fun x hx => hl x (List.mem_cons_of_mem a hx)) hy]
    rfl

/-- Helper: the seven exits of `link_telegram_id`, one conjunct per branch of
the route. -/
theorem link_telegram_id_run :
    ∀ (db : DB) (tid code : Option String) (now : Int),
      (isBlank tid = true → link_telegram_id db tid code now = (LinkResult.missingTelegramId, db)) ∧
      (isBlank tid = false → isBlank code = true →
        link_telegram_id db tid code now = (LinkResult.missingLinkCode, db)) ∧
      (isBlank tid = false → isBlank code = false →
        db.enrollments.find? (fun e => e.telegram_link_code == code) = none →
        link_telegram_id db tid code now = (LinkResult.invalidCode, db)) ∧
      (∀ e, isBlank tid = false → isBlank code = false →
        db.enrollments.find? (fun e2 => e2.telegram_link_code == code) = some e →
        e.telegram_link_code_used = true →
        link_telegram_id db tid code now = (LinkResult.invalidCode, db)) ∧
      (∀ e, isBlank tid = false → isBlank code = false →
        db.enrollments.find? (fun e2 => e2.telegram_link_code == code) = some e →
        e.telegram_link_code_used = false →
        e.telegram_link_code_expire_ts = none →
        link_telegram_id db tid code now = (LinkResult.serverError, db)) ∧
      (∀ e exp, isBlank tid = false → isBlank code = false →
        db.enrollments.find? (fun e2 => e2.telegram_link_code == code) = some e →
        e.telegram_link_code_used = false →
        e.telegram_link_code_expire_ts = some exp → exp < now →
        link_telegram_id db tid code now = (LinkResult.invalidCode, db)) ∧
      (∀ e exp, isBlank tid = false → isBlank code = false →
        db.enrollments.find? (fun e2 => e2.telegram_link_code == code) = some e →
        e.telegram_link_code_used = false →
        e.telegram_link_code_expire_ts = some exp → ¬ exp < now →
        link_telegram_id db tid code now = (LinkResult.ok, { db with
          enrollments := updateFirst (fun e2 => e2.telegram_link_code == code)
            (link_update tid) db.enrollments })) := by
  intro db tid code now
  refine ⟨?_, ?_, ?_, ?_, ?_, ?_, ?_⟩
  · intro h1
    simp only [link_telegram_id, h1, if_true]
  · intro h1 h2
    simp only [link_telegram_id, h1, h2, if_true, Bool.false_eq_true, if_false]
  · intro h1 h2 h3
    simp only [link_telegram_id, h1, h2, Bool.false_eq_true, if_false, h3]
  · intro e h1 h2 h3 h4
    simp only [link_telegram_id, h1, h2, Bool.false_eq_true, if_false, h3, h4, if_true]
  · intro e h1 h2 h3 h4 h5
    simp only [link_telegram_id, h1, h2, Bool.false_eq_true, if_false, h3, h4, h5]
  · intro e exp h1 h2 h3 h4 h5 h6
    simp only [link_telegram_id, h1, h2, Bool.false_eq_true, if_false, h3, h4, h5]
    simp [h6]
  · intro e exp h1 h2 h3 h4 h5 h6
    simp only [link_telegram_id, h1, h2, Bool.false_eq_true, if_false, h3, h4, h5]
    simp [h6]

/-- C8: a telegram link code is never successfully used twice.  A rejected
request (unknown, already-used, or expired code — and any other non-OK exit)
leaves the database unchanged; a successful request updates exactly the
matched enrollment, storing the telegram id and marking the code used; and
after a successful request, any further request with the same code is
rejected. -/
theorem link_telegram_id_spec :
    ∀ (db : DB) (tid code : Option String) (now : Int),
      ((link_telegram_id db tid code now).1 ≠ LinkResult.ok →
        (link_telegram_id db tid code now).2 = db) ∧
      (db.enrollments.find? (fun e => e.telegram_link_code == code) = none →
        (link_telegram_id db tid code now).1 ≠ LinkResult.ok) ∧
      (∀ e, db.enrollments.find? (fun e2 => e2.telegram_link_code == code) = some e →
        (e.telegram_link_code_used = true ∨
          ∃ exp, e.telegram_link_code_expire_ts = some exp ∧ exp < now) →
        (link_telegram_id db tid code now).1 ≠ LinkResult.ok) ∧
      ((link_telegram_id db tid code now).1 = LinkResult.ok →
        (∃ l1 e l2, db.enrollments = l1 ++ e :: l2 ∧
          (∀ x ∈ l1, (x.telegram_link_code == code) = false) ∧
          (e.telegram_link_code == code) = true ∧
          e.telegram_link_code_used = false ∧
          (link_telegram_id db tid code now).2.enrollments =
            l1 ++ link_update tid e :: l2) ∧
        ∀ (tid2 : Option String) (now2 : Int),
          (link_telegram_id (link_telegram_id db tid code now).2 tid2 code now2).1 ≠
            LinkResult.ok) := by
  intro db tid code now
  obtain ⟨r1, r2, r3, r4, r5, r6, r7⟩ := link_telegram_id_run db tid code now
  by_cases h1 : isBlank tid = true
  · rw [r1 h1]
    exact ⟨fun _ => rfl, fun _ => by simp, fun e _ _ => by simp, fun hok => by simp at hok⟩
  · have h1f : isBlank tid = false := by revert h1; cases isBlank tid <;> simp
    by_cases h2 : isBlank code = true
    · rw [r2 h1f h2]
      exact ⟨fun _ => rfl, fun _ => by simp, fun e _ _ => by simp, fun hok => by simp at hok⟩
    · have h2f : isBlank code = false := by revert h2; cases isBlank code <;> simp
      cases hf : db.enrollments.find? (fun e2 => e2.telegram_link_code == code) with
      | none =>
        rw [r3 h1f h2f hf]
        refine ⟨fun _ => rfl, fun _ => by simp, ?_, fun hok => by simp at hok⟩
        intro e he hbad
        simp [hf] at he
      | some e =>
        by_cases hu : e.telegram_link_code_used = true
        · rw [r4 e h1f h2f hf hu]
          refine ⟨fun _ => rfl, ?_, fun e2 _ _ => by simp, fun hok => by simp at hok⟩
          intro hn
          simp [hf] at hn
        · have huf : e.telegram_link_code_used = false := by
            revert hu; cases e.telegram_link_code_used <;> simp
          cases hexp : e.telegram_link_code_expire_ts with
          | none =>
            rw [r5 e h1f h2f hf huf hexp]
            refine ⟨fun _ => rfl, ?_, fun e2 _ _ => by simp, fun hok => by simp at hok⟩
            intro hn
            simp [hf] at hn
          | some exp =>
            by_cases hlt : exp < now
            · rw [r6 e exp h1f h2f hf huf hexp hlt]
              refine ⟨fun _ => rfl, ?_, fun e2 _ _ => by simp, fun hok => by simp at hok⟩
              intro hn
              simp [hf] at hn
            · rw [r7 e exp h1f h2f hf huf hexp hlt]
              refine ⟨fun hne => absurd rfl hne, ?_, ?_, ?_⟩
              · intro hn
                simp [hf] at hn
              · intro e2 he2 hbad
                have hee : e = e2 := by simpa using he2
                subst hee
                rcases hbad with hbad | ⟨exp2, hexp2, hlt2⟩
                · rw [huf] at hbad; cases hbad
                · rw [hexp] at hexp2
                  obtain rfl : exp2 = exp := by simpa using hexp2.symm
                  exact absurd hlt2 hlt
              · intro hok
                obtain ⟨l1, l2, hsplit, hpre, hpe⟩ := find?_decomp _ db.enrollments e hf
                have hupd : updateFirst (fun e2 => e2.telegram_link_code == code)
                    (link_update tid) db.enrollments = l1 ++ link_update tid e :: l2 := by
                  rw [hsplit]
                  exact updateFirst_append_cons _ _ l1 l2 e hpre hpe
                constructor
                · exact ⟨l1, e, l2, hsplit, hpre, hpe, huf, hupd⟩
                · intro tid2 now2
                  obtain ⟨s1, s2, s3, s4, s5, s6, s7⟩ :=
                    link_telegram_id_run { db with
                      enrollments := updateFirst (fun e2 => e2.telegram_link_code == code)
                        (link_update tid) db.enrollments } tid2 code now2
                  by_cases hb2 : isBlank tid2 = true
                  · rw [s1 hb2]; simp
                  · have hb2f : isBlank tid2 = false := by
                      revert hb2; cases isBlank tid2 <;> simp
                    have hfind2 : ({ db with
                        enrollments := updateFirst (fun e2 => e2.telegram_link_code == code)
                          (link_update tid) db.enrollments } : DB).enrollments.find?
                        (fun e2 => e2.telegram_link_code == code) =
                        some (link_update tid e) := by
                      show (updateFirst (fun e2 => e2.telegram_link_code == code)
                        (link_update tid) db.enrollments).find?
                        (fun e2 => e2.telegram_link_code == code) = _
                      rw [hupd]
                      exact find?_append_cons _ l1 l2 _ hpre hpe
                    rw [s4 _ hb2f h2f hfind2 rfl]
                    simp

/-- Helper: with pairwise-distinct keys, updating the first key match is a
pointwise conditional map. -/
theorem updateFirst_eq_map {α κ : Type} [DecidableEq κ] (key : α → κ) (f : α → α) (k : κ) :
    ∀ (xs : List α), (xs.map key).Nodup →
      updateFirst (fun x => key x == k) f xs =
        xs.map (fun x => if key x == k then f x else x) := by
  intro xs
  induction xs with
  | nil => intro _; rfl
  | cons a xs ih =>
    intro h
    rw [List.map_cons, List.nodup_cons] at h
    rw [updateFirst, List.map_cons]
    by_cases hk : (key a == k) = true
    · rw [if_pos hk, if_pos hk]
      congr 1
      have hnone : ∀ x ∈ xs, (key x == k) = false := by
        intro x hx
        rw [beq_eq_false_iff_ne]
        intro hxk
        apply h.1
        rw [List.mem_map]
        exact ⟨x, hx, by rw [hxk]; exact (beq_iff_eq.mp hk).symm⟩
      have : xs.map (fun x => if key x == k then f x else x) = xs.map id :=
        List.map_congr_left (fun x hx => by rw [hnone x hx]; rfl)
      rw [this, List.map_id]
    · rw [if_neg hk, if_neg hk, ih h.2]

/-- Helper: marking each key of `ks` in turn is a pointwise conditional map,
provided the marking is key-preserving and idempotent and keys are distinct. -/
theorem foldl_mark_eq_map {α κ : Type} [DecidableEq κ] (key : α → κ) (f : α → α)
    (hkey : ∀ x, key (f x) = key x) (hidem : ∀ x, f (f x) = f x) :
    ∀ (ks : List κ) (xs : List α), (xs.map key).Nodup →
      ks.foldl (fun acc k => updateFirst (fun x => key x == k) f acc) xs =
        xs.map (fun x => if key x ∈ ks then f x else x) := by
  intro ks
  induction ks with
  | nil =>
    intro xs _
    simp
  | cons k ks ih =>
    intro xs h
    rw [List.foldl_cons, updateFirst_eq_map key f k xs h]
    have hnodup2 : ((xs.map (fun x => if key x == k then f x else x)).map key).Nodup := by
      rw [List.map_map]
      have hcomp : (key ∘ fun x => if key x == k then f x else x) = key := by
        funext x
        by_cases hxk : (key x == k) = true <;> simp [Function.comp, hxk, hkey]
      rw [hcomp]
      exact h
    rw [ih _ hnodup2, List.map_map]
    apply List.map_congr_left
    intro x _
    simp only [Function.comp]
    by_cases h1 : (key x == k) = true
    · have hk1 : key x = k := beq_iff_eq.mp h1
      rw [if_pos h1]
      by_cases h2 : key (f x) ∈ ks
      · rw [if_pos h2, hidem, if_pos (by rw [List.mem_cons]; exact Or.inl hk1)]
      · rw [if_neg h2, if_pos (by rw [List.mem_cons]; exact Or.inl hk1)]
    · rw [if_neg h1]
      have hk1 : key x ≠ k := by simpa using h1
      by_cases h2 : key x ∈ ks
      · rw [if_pos h2, if_pos (by rw [List.mem_cons]; exact Or.inr h2)]
      · rw [if_neg h2, if_neg (by rw [List.mem_cons]; rintro (hc | hc) <;> exact absurd hc (by assumption))]

/-- Helper: folding a per-row action that only depends on the row's key is
folding over the keys. -/
theorem foldl_map_key {β κ α : Type} (rowkey : β → κ) (F : List α → κ → List α) :
    ∀ (rows : List β) (init : List α),
      rows.foldl (fun acc r => F acc (rowkey r)) init = (rows.map rowkey).foldl F init := by
  intro rows
  induction rows with
  | nil => intro init; rfl
  | cons r rows ih =>
    intro init
    rw [List.foldl_cons, List.map_cons, List.foldl_cons, ih]

/-- Helper: marking the key of each fetched row in turn is a pointwise
conditional map over the table. -/
theorem foldl_mark_rows_eq_map {α κ β : Type} [DecidableEq κ] (key : α → κ) (f : α → α)
    (rowkey : β → κ)
    (hkey : ∀ x, key (f x) = key x) (hidem : ∀ x, f (f x) = f x) :
    ∀ (rows : List β) (xs : List α), (xs.map key).Nodup →
      rows.foldl (fun acc r => updateFirst (fun x => key x == rowkey r) f acc) xs =
        xs.map (fun x => if key x ∈ rows.map rowkey then f x else x) := by
  intro rows xs h
  rw [foldl_map_key rowkey (fun acc k => updateFirst (fun x => key x == k) f acc) rows xs]
  exact foldl_mark_eq_map key f hkey hidem (rows.map rowkey) xs h

/-- Helper: with distinct (user, study) pairs, marking one user-study link
is a pointwise conditional map. -/
theorem markUserStudyDeleted_eq_map (uid sid : Nat) (now : Int) :
    ∀ (xs : List UserStudy), (xs.map (fun v => (v.user_id, v.study_id))).Nodup →
      markUserStudyDeleted uid sid now xs =
        xs.map (fun x => if x.user_id = uid ∧ x.study_id = sid
          then { x with deleted_at := some now } else x) := by
  intro xs
  induction xs with
  | nil => intro _; rfl
  | cons a xs ih =>
    intro h
    rw [List.map_cons, List.nodup_cons] at h
    show updateFirst (fun us => us.user_id == uid && us.study_id == sid)
      (fun us => { us with deleted_at := some now }) (a :: xs) = _
    rw [updateFirst, List.map_cons]
    by_cases hk : (a.user_id == uid && a.study_id == sid) = true
    · have hk2 : a.user_id = uid ∧ a.study_id = sid := by simpa using hk
      rw [if_pos hk, if_pos hk2]
      congr 1
      have hnone : ∀ x ∈ xs, ¬(x.user_id = uid ∧ x.study_id = sid) := by
        intro x hx hxk
        apply h.1
        rw [List.mem_map]
        exact ⟨x, hx, by rw [hxk.1, hxk.2, hk2.1, hk2.2]⟩
      have : xs.map (fun x => if x.user_id = uid ∧ x.study_id = sid
          then { x with deleted_at := some now } else x) = xs.map id :=
        List.map_congr_left (fun x hx => by rw [if_neg (hnone x hx)]; rfl)
      rw [this, List.map_id]
    · have hk2 : ¬(a.user_id = uid ∧ a.study_id = sid) := by
        intro hc
        exact hk (by simp [hc.1, hc.2])
      rw [if_neg hk, if_neg hk2]
      have := ih h.2
      rw [markUserStudyDeleted] at this
      rw [this]
  
/-- Helper: marking the user-study link of each listed user in turn is a
pointwise conditional map over the links. -/
theorem foldl_markUserStudy_eq_map (sid : Nat) (now : Int) :
    ∀ (rows : List User) (xs : List UserStudy),
      (xs.map (fun v => (v.user_id, v.study_id))).Nodup →
      rows.foldl (fun acc u => markUserStudyDeleted u.id sid now acc) xs =
        xs.map (fun x => if (∃ u ∈ rows, u.id = x.user_id) ∧ x.study_id = sid
          then { x with deleted_at := some now } else x) := by
  intro rows
  induction rows with
  | nil =>
    intro xs _
    rw [List.foldl_nil]
    have : xs.map (fun x => if (∃ u ∈ ([] : List User), u.id = x.user_id) ∧ x.study_id = sid
        then { x with deleted_at := some now } else x) = xs.map id :=
      List.map_congr_left (fun x _ => by
        rw [if_neg ?_]
        · rfl
        · rintro ⟨⟨u, hu, _⟩, _⟩
          simp at hu)
    rw [this, List.map_id]
  | cons u rows ih =>
    intro xs h
    rw [List.foldl_cons, markUserStudyDeleted_eq_map u.id sid now xs h]
    have hnodup2 : ((xs.map (fun x => if x.user_id = u.id ∧ x.study_id = sid
        then { x with deleted_at := some now } else x)).map
        (fun v => (v.user_id, v.study_id))).Nodup := by
      rw [List.map_map]
      have hcomp : ((fun v : UserStudy => (v.user_id, v.study_id)) ∘
          (fun x => if x.user_id = u.id ∧ x.study_id = sid
            then { x with deleted_at := some now } else x)) =
          (fun v : UserStudy => (v.user_id, v.study_id)) := by
        funext x
        by_cases hc : x.user_id = u.id ∧ x.study_id = sid <;> simp [Function.comp, hc]
      rw [hcomp]
      exact h
    rw [ih _ hnodup2, List.map_map]
    apply List.map_congr_left
    intro x _
    simp only [Function.comp]
    by_cases h1 : x.user_id = u.id ∧ x.study_id = sid
    · rw [if_pos h1]
      have hcond : (∃ v ∈ u :: rows, v.id = x.user_id) ∧ x.study_id = sid :=
        ⟨⟨u, List.mem_cons_self u rows, h1.1.symm⟩, h1.2⟩
      by_cases h2 : (∃ v ∈ rows, v.id = x.user_id) ∧ x.study_id = sid
      · rw [if_pos h2, if_pos hcond]
      · rw [if_neg h2, if_pos hcond]
    · rw [if_neg h1]
      by_cases h2 : (∃ v ∈ rows, v.id = x.user_id) ∧ x.study_id = sid
      · rw [if_pos h2, if_pos ⟨⟨h2.1.choose, List.mem_cons_of_mem u h2.1.choose_spec.1,
          h2.1.choose_spec.2⟩, h2.2⟩]
      · rw [if_neg h2, if_neg ?_]
        rintro ⟨⟨v, hv, hvid⟩, hsid⟩
        rcases List.mem_cons.mp hv with rfl | hv
        · exact h1 ⟨hvid.symm, hsid⟩
        · exact h2 ⟨⟨v, hv, hvid⟩, hsid⟩

/-- Helper: with distinct keys, a key of `xs` lands in the keys of
`xs.filter q` exactly when `q` holds of its row. -/
theorem key_mem_filter_iff {α κ : Type} [DecidableEq κ] (key : α → κ) (q : α → Bool) :
    ∀ (xs : List α), (xs.map key).Nodup → ∀ x ∈ xs,
      (key x ∈ (xs.filter q).map key ↔ q x = true) := by
  intro xs hnod x hx
  constructor
  · intro hmem
    rw [List.mem_map] at hmem
    obtain ⟨y, hy, hky⟩ := hmem
    rw [List.mem_filter] at hy
    have hinj := List.inj_on_of_nodup_map hnod
    have : y = x := hinj hy.1 hx hky
    rw [← this]
    exact hy.2
  · intro hq
    rw [List.mem_map]
    exact ⟨x, List.mem_filter.mpr ⟨hx, hq⟩, rfl⟩

/-- Helper: with distinct keys, nothing after the first occurrence of a key
shares it. -/
theorem nodup_key_suffix {α κ : Type} [DecidableEq κ] (key : α → κ) :
    ∀ (l1 : List α) (x : α) (l2 : List α), ((l1 ++ x :: l2).map key).Nodup →
      ∀ y ∈ l2, key y ≠ key x := by
  intro l1 x l2 h y hy
  have hsub : ((x :: l2).map key).Sublist ((l1 ++ x :: l2).map key) :=
    List.Sublist.map key (List.sublist_append_right l1 (x :: l2))
  have h2 := h.sublist hsub
  rw [List.map_cons, List.nodup_cons] at h2
  intro hk
  apply h2.1
  rw [List.mem_map]
  exact ⟨y, hy, hk⟩

/-- Helper: after marking the first `pM` hit of the row the
include-deleted getter found, the getter still finds it (now marked) and the
active-only getter finds nothing. -/
theorem mark_core {α κ : Type} [DecidableEq κ] (key : α → κ) (k : κ)
    (pG pM pF : α → Bool) (f : α → α)
    (hGkey : ∀ y, pG y = true ↔ key y = k)
    (hMG : ∀ y, pG y = false → pM y = false)
    (hFG : ∀ y, pG y = false → pF y = false)
    (hfkey : ∀ x, key (f x) = key x)
    (hFf : ∀ x, pF (f x) = false) :
    ∀ (xs : List α) (x : α), (xs.map key).Nodup → xs.find? pG = some x → pM x = true →
      (updateFirst pM f xs).find? pG = some (f x) ∧
      (updateFirst pM f xs).find? pF = none := by
  intro xs x hnod h hMx
  obtain ⟨l1, l2, hxs, hpre, hx⟩ := find?_decomp pG xs x h
  subst hxs
  have hpreM : ∀ y ∈ l1, pM y = false := fun y hy => hMG y (hpre y hy)
  rw [updateFirst_append_cons pM f l1 l2 x hpreM hMx]
  have hGfx : pG (f x) = true := by
    rw [hGkey, hfkey]
    exact (hGkey x).mp hx
  constructor
  · exact find?_append_cons pG l1 l2 (f x) hpre hGfx
  · rw [List.find?_eq_none]
    intro y hy
    rw [List.mem_append, List.mem_cons] at hy
    rcases hy with hy | rfl | hy
    · rw [hFG y (hpre y hy)]
      simp
    · rw [hFf x]
      simp
    · have hne : key y ≠ key x := nodup_key_suffix key l1 x l2 hnod y hy
      have hGy : pG y = false := by
        rw [← Bool.not_eq_true, hGkey]
        rw [(hGkey x).mp hx] at hne
        exact hne
      rw [hFG y hGy]
      simp

/-- C5: each soft-delete operation on an existing active record reports
success and sets `deleted_at` instead of removing the row: afterwards the
id-based read with `include_deleted=True` still returns the record (now
carrying the deletion timestamp) while the read with `include_deleted=False`
returns nothing.  (Primary keys are assumed distinct, as the database
enforces.) -/
theorem soft_delete_marks_not_removes :
    (∀ (db : DB) (uid : Nat) (now : Int) (u : User),
      (db.users.map User.id).Nodup →
      get_user_by_id db uid true = some u → u.deleted_at = none →
      (soft_delete_user db uid now).1 = true ∧
      get_user_by_id (soft_delete_user db uid now).2 uid true
        = some { u with deleted_at := some now } ∧
      get_user_by_id (soft_delete_user db uid now).2 uid false = none) ∧
    (∀ (db : DB) (sid : Nat) (now : Int) (s : Study),
      (db.studies.map Study.id).Nodup →
      get_study_by_id db sid true = some s → s.deleted_at = none →
      (soft_delete_study db sid now).1 = true ∧
      get_study_by_id (soft_delete_study db sid now).2 sid true
        = some { s with deleted_at := some now } ∧
      get_study_by_id (soft_delete_study db sid now).2 sid false = none) ∧
    (∀ (db : DB) (eid : Nat) (now : Int) (e : Enrollment),
      (db.enrollments.map Enrollment.id).Nodup →
      get_enrollment_by_id db eid true = some e → e.deleted_at = none →
      (soft_delete_enrollment db eid now).1 = true ∧
      get_enrollment_by_id (soft_delete_enrollment db eid now).2 eid true
        = some { e with deleted_at := some now } ∧
      get_enrollment_by_id (soft_delete_enrollment db eid now).2 eid false = none) ∧
    (∀ (db : DB) (ptid : Nat) (now : Int) (pt : PingTemplate),
      (db.ping_templates.map PingTemplate.id).Nodup →
      get_ping_template_by_id db ptid true = some pt → pt.deleted_at = none →
      (soft_delete_ping_template db ptid now).1 = true ∧
      get_ping_template_by_id (soft_delete_ping_template db ptid now).2 ptid true
        = some { pt with deleted_at := some now } ∧
      get_ping_template_by_id (soft_delete_ping_template db ptid now).2 ptid false = none) ∧
    (∀ (db : DB) (pid : Nat) (now : Int) (p : Ping),
      (db.pings.map Ping.id).Nodup →
      get_ping_by_id db pid true = some p → p.deleted_at = none →
      (soft_delete_ping db pid now).1 = true ∧
      get_ping_by_id (soft_delete_ping db pid now).2 pid true
        = some { p with deleted_at := some now } ∧
      get_ping_by_id (soft_delete_ping db pid now).2 pid false = none) ∧
    (∀ (db : DB) (uid sid : Nat) (now : Int) (us : UserStudy),
      (db.user_studies.map (fun v => (v.user_id, v.study_id))).Nodup →
      get_user_study db uid sid true = some us → us.deleted_at = none →
      (soft_delete_user_study db uid sid now).1 = true ∧
      get_user_study (soft_delete_user_study db uid sid now).2 uid sid true
        = some { us with deleted_at := some now } ∧
      get_user_study (soft_delete_user_study db uid sid now).2 uid sid false = none) ∧
    (∀ (db : DB) (qid : Nat) (now : Int) (q : Support),
      (db.supports.map Support.id).Nodup →
      get_support_by_id db qid true = some q → q.deleted_at = none →
      (soft_delete_support_query db qid now).1 = true ∧
      get_support_by_id (soft_delete_support_query db qid now).2 qid true
        = some { q with deleted_at := some now } ∧
      get_support_by_id (soft_delete_support_query db qid now).2 qid false = none) := by
  refine ⟨?_, ?_, ?_, ?_, ?_, ?_, ?_⟩
  · intro db uid now u hnod hget hdel
    have hcore := mark_core User.id uid
      (fun y => y.id == uid && include_deleted_records true y.deleted_at)
      (fun y => y.id == uid)
      (fun y => y.id == uid && include_deleted_records false y.deleted_at)
      (fun y => { y with deleted_at := some now })
      (by intro y; simp [include_deleted_records])
      (by intro y hy; simpa [include_deleted_records] using hy)
      (by intro y hy; simp [include_deleted_records] at hy ⊢; intro hc; exact absurd hc hy)
      (by intro y; rfl)
      (by intro y; simp [include_deleted_records])
      db.users u hnod hget
      (by
        have := List.find?_some hget
        simpa [include_deleted_records] using this)
    simp only [soft_delete_user, hget]
    refine ⟨by trivial, ?_, ?_⟩
    · show (markUserDeleted uid now db.users).find?
        (fun y => y.id == uid && include_deleted_records true y.deleted_at) = _
      exact hcore.1
    · show (markUserDeleted uid now db.users).find?
        (fun y => y.id == uid && include_deleted_records false y.deleted_at) = none
      exact hcore.2
  · intro db sid now s hnod hget hdel
    have hcore := mark_core Study.id sid
      (fun y => y.id == sid && include_deleted_records true y.deleted_at)
      (fun y => y.id == sid)
      (fun y => y.id == sid && include_deleted_records false y.deleted_at)
      (fun y => { y with deleted_at := some now })
      (by intro y; simp [include_deleted_records])
      (by intro y hy; simpa [include_deleted_records] using hy)
      (by intro y hy; simp [include_deleted_records] at hy ⊢; intro hc; exact absurd hc hy)
      (by intro y; rfl)
      (by intro y; simp [include_deleted_records])
      db.studies s hnod hget
      (by
        have := List.find?_some hget
        simpa [include_deleted_records] using this)
    simp only [soft_delete_study, hget]
    refine ⟨by trivial, ?_, ?_⟩
    · show (markStudyDeleted sid now db.studies).find?
        (fun y => y.id == sid && include_deleted_records true y.deleted_at) = _
      exact hcore.1
    · show (markStudyDeleted sid now db.studies).find?
        (fun y => y.id == sid && include_deleted_records false y.deleted_at) = none
      exact hcore.2
  · intro db eid now e hnod hget hdel
    have hcore := mark_core Enrollment.id eid
      (fun y => y.id == eid && include_deleted_records true y.deleted_at)
      (fun y => y.id == eid)
      (fun y => y.id == eid && include_deleted_records false y.deleted_at)
      (fun y => { y with deleted_at := some now })
      (by intro y; simp [include_deleted_records])
      (by intro y hy; simpa [include_deleted_records] using hy)
      (by intro y hy; simp [include_deleted_records] at hy ⊢; intro hc; exact absurd hc hy)
      (by intro y; rfl)
      (by intro y; simp [include_deleted_records])
      db.enrollments e hnod hget
      (by
        have := List.find?_some hget
        simpa [include_deleted_records] using this)
    simp only [soft_delete_enrollment, hget]
    refine ⟨by trivial, ?_, ?_⟩
    · show (markEnrollmentDeleted eid now db.enrollments).find?
        (fun y => y.id == eid && include_deleted_records true y.deleted_at) = _
      exact hcore.1
    · show (markEnrollmentDeleted eid now db.enrollments).find?
        (fun y => y.id == eid && include_deleted_records false y.deleted_at) = none
      exact hcore.2
  · intro db ptid now pt hnod hget hdel
    have hcore := mark_core PingTemplate.id ptid
      (fun y => y.id == ptid && include_deleted_records true y.deleted_at)
      (fun y => y.id == ptid)
      (fun y => y.id == ptid && include_deleted_records false y.deleted_at)
      (fun y => { y with deleted_at := some now })
      (by intro y; simp [include_deleted_records])
      (by intro y hy; simpa [include_deleted_records] using hy)
      (by intro y hy; simp [include_deleted_records] at hy ⊢; intro hc; exact absurd hc hy)
      (by intro y; rfl)
      (by intro y; simp [include_deleted_records])
      db.ping_templates pt hnod hget
      (by
        have := List.find?_some hget
        simpa [include_deleted_records] using this)
    simp only [soft_delete_ping_template, hget]
    refine ⟨by trivial, ?_, ?_⟩
    · show (markPingTemplateDeleted ptid now db.ping_templates).find?
        (fun y => y.id == ptid && include_deleted_records true y.deleted_at) = _
      exact hcore.1
    · show (markPingTemplateDeleted ptid now db.ping_templates).find?
        (fun y => y.id == ptid && include_deleted_records false y.deleted_at) = none
      exact hcore.2
  · intro db pid now p hnod hget hdel
    have hcore := mark_core Ping.id pid
      (fun y => y.id == pid && include_deleted_records true y.deleted_at)
      (fun y => y.id == pid)
      (fun y => y.id == pid && include_deleted_records false y.deleted_at)
      (fun y => { y with deleted_at := some now })
      (by intro y; simp [include_deleted_records])
      (by intro y hy; simpa [include_deleted_records] using hy)
      (by intro y hy; simp [include_deleted_records] at hy ⊢; intro hc; exact absurd hc hy)
      (by intro y; rfl)
      (by intro y; simp [include_deleted_records])
      db.pings p hnod hget
      (by
        have := List.find?_some hget
        simpa [include_deleted_records] using this)
    simp only [soft_delete_ping, hget]
    refine ⟨by trivial, ?_, ?_⟩
    · show (markPingDeleted pid now db.pings).find?
        (fun y => y.id == pid && include_deleted_records true y.deleted_at) = _
      exact hcore.1
    · show (markPingDeleted pid now db.pings).find?
        (fun y => y.id == pid && include_deleted_records false y.deleted_at) = none
      exact hcore.2
  · intro db uid sid now us hnod hget hdel
    have hget2 : db.user_studies.find? (fun y => y.user_id == uid && y.study_id == sid
        && include_deleted_records true y.deleted_at) = some us := hget
    have hx := List.find?_some hget2
    have hxp : us.user_id = uid ∧ us.study_id = sid := by
      simpa [include_deleted_records] using hx
    have hgetF : get_user_study db uid sid false = some us := by
      obtain ⟨l1, l2, hxs, hpre, _⟩ :=
        find?_decomp (fun y => y.user_id == uid && y.study_id == sid
          && include_deleted_records true y.deleted_at) db.user_studies us hget2
      show db.user_studies.find? (fun y => y.user_id == uid && y.study_id == sid
        && include_deleted_records false y.deleted_at) = some us
      rw [hxs]
      apply find?_append_cons (fun y => y.user_id == uid && y.study_id == sid
        && include_deleted_records false y.deleted_at) l1 l2 us
      · intro y hy
        have := hpre y hy
        simp [include_deleted_records] at this ⊢
        tauto
      · simp [include_deleted_records]
        exact ⟨hxp, hdel⟩
    have hcore := mark_core (fun v : UserStudy => (v.user_id, v.study_id)) (uid, sid)
      (fun y => y.user_id == uid && y.study_id == sid
        && include_deleted_records true y.deleted_at)
      (fun y => y.user_id == uid && y.study_id == sid
        && include_deleted_records false y.deleted_at)
      (fun y => y.user_id == uid && y.study_id == sid
        && include_deleted_records false y.deleted_at)
      (fun y => { y with deleted_at := some now })
      (by intro y; simp [include_deleted_records, Prod.ext_iff])
      (by
        intro y hy
        simp [include_deleted_records] at hy ⊢
        tauto)
      (by
        intro y hy
        simp [include_deleted_records] at hy ⊢
        tauto)
      (by intro y; rfl)
      (by intro y; simp [include_deleted_records])
      db.user_studies us hnod hget2
      (by
        simp [include_deleted_records]
        exact ⟨hxp, hdel⟩)
    simp only [soft_delete_user_study, hgetF]
    refine ⟨by trivial, ?_, ?_⟩
    · show (updateFirst (fun y => y.user_id == uid && y.study_id == sid
          && include_deleted_records false y.deleted_at)
        (fun y => { y with deleted_at := some now }) db.user_studies).find?
        (fun y => y.user_id == uid && y.study_id == sid
          && include_deleted_records true y.deleted_at) = _
      exact hcore.1
    · show (updateFirst (fun y => y.user_id == uid && y.study_id == sid
          && include_deleted_records false y.deleted_at)
        (fun y => { y with deleted_at := some now }) db.user_studies).find?
        (fun y => y.user_id == uid && y.study_id == sid
          && include_deleted_records false y.deleted_at) = none
      exact hcore.2
  · intro db qid now q hnod hget hdel
    have hcore := mark_core Support.id qid
      (fun y => y.id == qid && include_deleted_records true y.deleted_at)
      (fun y => y.id == qid)
      (fun y => y.id == qid && include_deleted_records false y.deleted_at)
      (fun y => { y with deleted_at := some now })
      (by intro y; simp [include_deleted_records])
      (by intro y hy; simpa [include_deleted_records] using hy)
      (by intro y hy; simp [include_deleted_records] at hy ⊢; intro hc; exact absurd hc hy)
      (by intro y; rfl)
      (by intro y; simp [include_deleted_records])
      db.supports q hnod hget
      (by
        have := List.find?_some hget
        simpa [include_deleted_records] using this)
    simp only [soft_delete_support_query, hget]
    refine ⟨by trivial, ?_, ?_⟩
    · show (updateFirst (fun y => y.id == qid)
        (fun y => { y with deleted_at := some now }) db.supports).find?
        (fun y => y.id == qid && include_deleted_records true y.deleted_at) = _
      exact hcore.1
    · show (updateFirst (fun y => y.id == qid)
        (fun y => { y with deleted_at := some now }) db.supports).find?
        (fun y => y.id == qid && include_deleted_records false y.deleted_at) = none
      exact hcore.2

/-- C9: soft deletion cascades over ownership and nothing else.  With
distinct primary keys and intact foreign keys, `soft_delete_study` marks
`deleted_at` on exactly the study, its enrollments, the pings of those
enrollments, its ping templates and its user-study links, leaving users,
support queries and all unrelated rows untouched; `soft_delete_enrollment`
marks exactly the enrollment and its pings; on a missing id both return
`False` and change nothing. -/
theorem soft_delete_cascade_frame :
    (∀ (db : DB) (sid : Nat) (now : Int),
      (db.studies.map Study.id).Nodup →
      (db.enrollments.map Enrollment.id).Nodup →
      (db.pings.map Ping.id).Nodup →
      (db.ping_templates.map PingTemplate.id).Nodup →
      (db.user_studies.map (fun v => (v.user_id, v.study_id))).Nodup →
      (∀ us ∈ db.user_studies, ∃ u ∈ db.users, u.id = us.user_id) →
      (get_study_by_id db sid true = none →
        soft_delete_study db sid now = (false, db)) ∧
      (∀ s, get_study_by_id db sid true = some s →
        soft_delete_study db sid now = (true, { db with
          studies := db.studies.map
            (fun x => if x.id == sid then { x with deleted_at := some now } else x),
          enrollments := db.enrollments.map
            (fun x => if x.study_id == sid then { x with deleted_at := some now } else x),
          pings := db.pings.map
            (fun p => if db.enrollments.any
                (fun e => e.id == p.enrollment_id && e.study_id == sid) then
              { p with deleted_at := some now } else p),
          ping_templates := db.ping_templates.map
            (fun x => if x.study_id == sid then { x with deleted_at := some now } else x),
          user_studies := db.user_studies.map
            (fun x => if x.study_id == sid then { x with deleted_at := some now } else x) }))) ∧
    (∀ (db : DB) (eid : Nat) (now : Int),
      (db.enrollments.map Enrollment.id).Nodup →
      (db.pings.map Ping.id).Nodup →
      (get_enrollment_by_id db eid true = none →
        soft_delete_enrollment db eid now = (false, db)) ∧
      (∀ e, get_enrollment_by_id db eid true = some e →
        soft_delete_enrollment db eid now = (true, { db with
          enrollments := db.enrollments.map
            (fun x => if x.id == eid then { x with deleted_at := some now } else x),
          pings := db.pings.map
            (fun p => if p.enrollment_id == eid then
              { p with deleted_at := some now } else p) }))) := by
  constructor
  · intro db sid now hnodS hnodE hnodP hnodT hnodUS hfk
    constructor
    · intro hnone
      simp only [soft_delete_study, hnone]
    · intro s hget
      simp only [soft_delete_study, hget]
      refine congrArg (Prod.mk true) ?_
      have hstudies : markStudyDeleted sid now db.studies = db.studies.map
          (fun x => if x.id == sid then { x with deleted_at := some now } else x) :=
        updateFirst_eq_map Study.id (fun x => { x with deleted_at := some now }) sid
          db.studies hnodS
      have henr : (get_enrollments_by_study_id db sid true).foldl
          (fun acc e => markEnrollmentDeleted e.id now acc) db.enrollments =
          db.enrollments.map
            (fun x => if x.study_id == sid then { x with deleted_at := some now } else x) := by
        show ((db.enrollments.filter
          (fun e => e.study_id == sid && include_deleted_records true e.deleted_at)).foldl
          (fun acc e => updateFirst (fun x => x.id == e.id)
            (fun x => { x with deleted_at := some now }) acc) db.enrollments) = _
        rw [foldl_mark_rows_eq_map Enrollment.id (fun x => { x with deleted_at := some now })
          Enrollment.id (fun x => rfl) (fun x => rfl) _ db.enrollments hnodE]
        apply List.map_congr_left
        intro x hx
        have hiff := key_mem_filter_iff Enrollment.id
          (fun e => e.study_id == sid && include_deleted_records true e.deleted_at)
          db.enrollments hnodE x hx
        by_cases hq : (x.study_id == sid) = true
        · rw [if_pos (hiff.mpr (by simp [include_deleted_records, hq])), if_pos hq]
        · rw [if_neg ?_, if_neg hq]
          intro hc
          have := hiff.mp hc
          simp [include_deleted_records] at this
          exact absurd (by simpa using this) hq
      have hpings : (get_pings_by_study_id db sid true).foldl
          (fun acc p => markPingDeleted p.id now acc) db.pings =
          db.pings.map
            (fun p => if db.enrollments.any
                (fun e => e.id == p.enrollment_id && e.study_id == sid) then
              { p with deleted_at := some now } else p) := by
        show ((db.pings.filter
          (fun p => db.enrollments.any (fun e => e.id == p.enrollment_id && e.study_id == sid)
            && include_deleted_records true p.deleted_at)).foldl
          (fun acc p => updateFirst (fun x => x.id == p.id)
            (fun x => { x with deleted_at := some now }) acc) db.pings) = _
        rw [foldl_mark_rows_eq_map Ping.id (fun x => { x with deleted_at := some now })
          Ping.id (fun x => rfl) (fun x => rfl) _ db.pings hnodP]
        apply List.map_congr_left
        intro x hx
        have hiff := key_mem_filter_iff Ping.id
          (fun p => db.enrollments.any (fun e => e.id == p.enrollment_id && e.study_id == sid)
            && include_deleted_records true p.deleted_at)
          db.pings hnodP x hx
        by_cases hq : (db.enrollments.any
            (fun e => e.id == x.enrollment_id && e.study_id == sid)) = true
        · rw [if_pos (hiff.mpr (by simp [include_deleted_records, hq])), if_pos hq]
        · rw [if_neg ?_, if_neg hq]
          intro hc
          have := hiff.mp hc
          simp [include_deleted_records] at this
          exact absurd (by simpa using this) hq
      have hpts : (get_ping_templates_by_study_id db sid true).foldl
          (fun acc pt => markPingTemplateDeleted pt.id now acc) db.ping_templates =
          db.ping_templates.map
            (fun x => if x.study_id == sid then { x with deleted_at := some now } else x) := by
        show ((db.ping_templates.filter
          (fun pt => pt.study_id == sid && include_deleted_records true pt.deleted_at)).foldl
          (fun acc pt => updateFirst (fun x => x.id == pt.id)
            (fun x => { x with deleted_at := some now }) acc) db.ping_templates) = _
        rw [foldl_mark_rows_eq_map PingTemplate.id (fun x => { x with deleted_at := some now })
          PingTemplate.id (fun x => rfl) (fun x => rfl) _ db.ping_templates hnodT]
        apply List.map_congr_left
        intro x hx
        have hiff := key_mem_filter_iff PingTemplate.id
          (fun pt => pt.study_id == sid && include_deleted_records true pt.deleted_at)
          db.ping_templates hnodT x hx
        by_cases hq : (x.study_id == sid) = true
        · rw [if_pos (hiff.mpr (by simp [include_deleted_records, hq])), if_pos hq]
        · rw [if_neg ?_, if_neg hq]
          intro hc
          have := hiff.mp hc
          simp [include_deleted_records] at this
          exact absurd (by simpa using this) hq
      have hus : (get_users_for_study db sid true).foldl
          (fun acc u => markUserStudyDeleted u.id sid now acc) db.user_studies =
          db.user_studies.map
            (fun x => if x.study_id == sid then { x with deleted_at := some now } else x) := by
        rw [foldl_markUserStudy_eq_map sid now (get_users_for_study db sid true)
          db.user_studies hnodUS]
        apply List.map_congr_left
        intro x hx
        by_cases hq : (x.study_id == sid) = true
        · rw [if_pos ?_, if_pos hq]
          refine ⟨?_, beq_iff_eq.mp hq⟩
          obtain ⟨u0, hu0, hu0id⟩ := hfk x hx
          refine ⟨u0, ?_, hu0id⟩
          show u0 ∈ db.users.filter
            (fun u => db.user_studies.any (fun us => us.user_id == u.id && us.study_id == sid)
              && include_deleted_records true u.deleted_at)
          rw [List.mem_filter]
          refine ⟨hu0, ?_⟩
          have hany : db.user_studies.any
              (fun us => us.user_id == u0.id && us.study_id == sid) = true := by
            rw [List.any_eq_true]
            exact ⟨x, hx, by simp [hu0id, hq]⟩
          simp [include_deleted_records, hany]
        · rw [if_neg ?_, if_neg hq]
          rintro ⟨_, hsid⟩
          exact absurd (beq_iff_eq.mpr hsid) hq
      rw [hstudies, henr, hpings, hpts, hus]
  · intro db eid now hnodE hnodP
    constructor
    · intro hnone
      simp only [soft_delete_enrollment, hnone]
    · intro e hget
      simp only [soft_delete_enrollment, hget]
      refine congrArg (Prod.mk true) ?_
      have hpings : (get_pings_by_enrollment_id db eid true).foldl
          (fun acc p => markPingDeleted p.id now acc) db.pings =
          db.pings.map
            (fun p => if p.enrollment_id == eid then
              { p with deleted_at := some now } else p) := by
        show ((db.pings.filter
          (fun p => p.enrollment_id == eid && include_deleted_records true p.deleted_at)).foldl
          (fun acc p => updateFirst (fun x => x.id == p.id)
            (fun x => { x with deleted_at := some now }) acc) db.pings) = _
        rw [foldl_mark_rows_eq_map Ping.id (fun x => { x with deleted_at := some now })
          Ping.id (fun x => rfl) (fun x => rfl) _ db.pings hnodP]
        apply List.map_congr_left
        intro x hx
        have hiff := key_mem_filter_iff Ping.id
          (fun p => p.enrollment_id == eid && include_deleted_records true p.deleted_at)
          db.pings hnodP x hx
        by_cases hq : (x.enrollment_id == eid) = true
        · rw [if_pos (hiff.mpr (by simp [include_deleted_records, hq])), if_pos hq]
        · rw [if_neg ?_, if_neg hq]
          intro hc
          have := hiff.mp hc
          simp [include_deleted_records] at this
          exact absurd (by simpa using this) hq
      have henr2 : markEnrollmentDeleted eid now db.enrollments = db.enrollments.map
          (fun x => if x.id == eid then { x with deleted_at := some now } else x) :=
        updateFirst_eq_map Enrollment.id (fun x => { x with deleted_at := some now }) eid
          db.enrollments hnodE
      rw [hpings, henr2]

/-- Witness for C3: on `wDB` the run creates exactly the one ping of the one
window, pending, and commits it. -/
theorem make_pings_one_per_window_witness :
    make_pings wDB 1 1 (fun _ => some 0) (fun _ => 0) = some ([wPingNew], wDBafter) ∧
    ([wPingNew].length =
      ((wDB.ping_templates.filter (fun pt => pt.study_id == 1)).map
        (fun pt => pt.schedule.length)).sum ∧
      wDBafter.pings = wDB.pings ++ [wPingNew] ∧
      ∀ p ∈ [wPingNew], p.ping_sent = false ∧ p.reminder_sent = false) :=
  ⟨by decide, make_pings_one_per_window wDB 1 1 (fun _ => some 0) (fun _ => 0)
    [wPingNew] wDBafter (by decide)⟩

/-- Witness for C4: that ping's expiry and reminder are the template's fixed
offsets from its scheduled time. -/
theorem make_pings_fixed_offsets_witness :
    ∃ pt ∈ wDB.ping_templates, pt.id = wPingNew.ping_template_id ∧
      ∃ ex rem, pt.expire_latency = some ex ∧ pt.reminder_latency = some rem ∧
        wPingNew.expire_ts = some (wPingNew.scheduled_ts + ex) ∧
        wPingNew.reminder_ts = some (wPingNew.scheduled_ts + rem) :=
  make_pings_fixed_offsets wDB 1 1 (fun _ => some 0) (fun _ => 0)
    [wPingNew] wDBafter (by decide) wPingNew (by decide)

/-- Witness for C6: two runs against `wDB6`, the second holding the first's
locks, never claim the same ping id, for due pings and for reminders. -/
theorem skip_locked_no_double_claim_witness :
    (wPing 1 1000 none none).id ≠ (wPing 2 2000 none none).id ∧
    (wPing 3 0 (some 10) (some 1000)).id ≠ (wPing 4 0 (some 10) (some 2000)).id :=
  ⟨skip_locked_no_double_claim.1 wDB6 [] 1000 2000
      (wPing 1 1000 none none) (wPing 2 2000 none none) (by decide) (by decide),
    skip_locked_no_double_claim.2 wDB6 [] 1000 2000
      (wPing 3 0 (some 10) (some 1000)) (wPing 4 0 (some 10) (some 2000))
      (by decide) (by decide)⟩

/-- Witness for C7: on `wDB7` a bad code answers not-found unchanged, and
the matching code appends exactly the one new enrollment. -/
theorem study_signup_spec_witness :
    study_signup wDB7 ("BAD") ("pid") ("UTC") [("zzz")] 5 100 (fun _ => some 0)
      (fun _ => 0) = some (SignupResponse.invalidCode, wDB7) ∧
    (∃ e : Enrollment, wDB7b.enrollments = wDB7.enrollments ++ [e] ∧
      e.study_id = wStudy.id ∧ e.tz = ("UTC") ∧ e.study_pid = ("pid") ∧
      e.enrolled = true ∧ e.start_date = 5) :=
  ⟨(study_signup_spec wDB7 ("BAD") ("pid") ("UTC") [("zzz")] 5 100 (fun _ => some 0)
      (fun _ => 0)).1 (by decide),
    (study_signup_spec wDB7 ("S1") ("pid") ("UTC") [("zzz")] 5 100 (fun _ => some 0)
      (fun _ => 0)).2 wStudy SignupResponse.serverError wDB7b (by decide) (by decide)⟩

/-- Witness for C8: linking T1 with code abc on `wDB8` updates exactly that
enrollment and no later request with abc can succeed. -/
theorem link_telegram_id_spec_witness :
    (∃ l1 e l2, wDB8.enrollments = l1 ++ e :: l2 ∧
      (∀ x ∈ l1, (x.telegram_link_code == some ("abc")) = false) ∧
      (e.telegram_link_code == some ("abc")) = true ∧
      e.telegram_link_code_used = false ∧
      (link_telegram_id wDB8 (some ("T1")) (some ("abc")) 50).2.enrollments =
        l1 ++ link_update (some ("T1")) e :: l2) ∧
    ∀ (tid2 : Option String) (now2 : Int),
      (link_telegram_id (link_telegram_id wDB8 (some ("T1")) (some ("abc")) 50).2 tid2
        (some ("abc")) now2).1 ≠ LinkResult.ok :=
  (link_telegram_id_spec wDB8 (some ("T1")) (some ("abc")) 50).2.2.2 (by decide)

/-- Witness for C5: the seven soft deletes on `wDB5`, each on the one active
row of its table. -/
theorem soft_delete_marks_not_removes_witness :
    ((soft_delete_user wDB5 1 99).1 = true ∧
      get_user_by_id (soft_delete_user wDB5 1 99).2 1 true
        = some { wUser with deleted_at := some 99 } ∧
      get_user_by_id (soft_delete_user wDB5 1 99).2 1 false = none) ∧
    ((soft_delete_study wDB5 1 99).1 = true ∧
      get_study_by_id (soft_delete_study wDB5 1 99).2 1 true
        = some { wStudy with deleted_at := some 99 } ∧
      get_study_by_id (soft_delete_study wDB5 1 99).2 1 false = none) ∧
    ((soft_delete_enrollment wDB5 1 99).1 = true ∧
      get_enrollment_by_id (soft_delete_enrollment wDB5 1 99).2 1 true
        = some { wEnrollment with deleted_at := some 99 } ∧
      get_enrollment_by_id (soft_delete_enrollment wDB5 1 99).2 1 false = none) ∧
    ((soft_delete_ping_template wDB5 1 99).1 = true ∧
      get_ping_template_by_id (soft_delete_ping_template wDB5 1 99).2 1 true
        = some { wTemplate with deleted_at := some 99 } ∧
      get_ping_template_by_id (soft_delete_ping_template wDB5 1 99).2 1 false = none) ∧
    ((soft_delete_ping wDB5 1 99).1 = true ∧
      get_ping_by_id (soft_delete_ping wDB5 1 99).2 1 true
        = some { wPing 1 1000 none none with deleted_at := some 99 } ∧
      get_ping_by_id (soft_delete_ping wDB5 1 99).2 1 false = none) ∧
    ((soft_delete_user_study wDB5 1 1 99).1 = true ∧
      get_user_study (soft_delete_user_study wDB5 1 1 99).2 1 1 true
        = some { wUserStudy with deleted_at := some 99 } ∧
      get_user_study (soft_delete_user_study wDB5 1 1 99).2 1 1 false = none) ∧
    ((soft_delete_support_query wDB5 1 99).1 = true ∧
      get_support_by_id (soft_delete_support_query wDB5 1 99).2 1 true
        = some { wSupport with deleted_at := some 99 } ∧
      get_support_by_id (soft_delete_support_query wDB5 1 99).2 1 false = none) :=
  ⟨soft_delete_marks_not_removes.1 wDB5 1 99 wUser (by decide) (by decide) (by decide),
    soft_delete_marks_not_removes.2.1 wDB5 1 99 wStudy (by decide) (by decide) (by decide),
    soft_delete_marks_not_removes.2.2.1 wDB5 1 99 wEnrollment (by decide) (by decide)
      (by decide),
    soft_delete_marks_not_removes.2.2.2.1 wDB5 1 99 wTemplate (by decide) (by decide)
      (by decide),
    soft_delete_marks_not_removes.2.2.2.2.1 wDB5 1 99 (wPing 1 1000 none none)
      (by decide) (by decide) (by decide),
    soft_delete_marks_not_removes.2.2.2.2.2.1 wDB5 1 1 99 wUserStudy (by decide)
      (by decide) (by decide),
    soft_delete_marks_not_removes.2.2.2.2.2.2 wDB5 1 99 wSupport (by decide)
      (by decide) (by decide)⟩

/-- Witness for C9: on `wDB5`, deleting study 1 marks every related row and
nothing else; deleting a missing study changes nothing; likewise for
enrollment 1. -/
theorem soft_delete_cascade_frame_witness :
    soft_delete_study wDB5 999 77 = (false, wDB5) ∧
    soft_delete_study wDB5 1 77 = (true, { wDB5 with
      studies := wDB5.studies.map
        (fun x => if x.id == 1 then { x with deleted_at := some 77 } else x),
      enrollments := wDB5.enrollments.map
        (fun x => if x.study_id == 1 then { x with deleted_at := some 77 } else x),
      pings := wDB5.pings.map
        (fun p => if wDB5.enrollments.any
            (fun e => e.id == p.enrollment_id && e.study_id == 1) then
          { p with deleted_at := some 77 } else p),
      ping_templates := wDB5.ping_templates.map
        (fun x => if x.study_id == 1 then { x with deleted_at := some 77 } else x),
      user_studies := wDB5.user_studies.map
        (fun x => if x.study_id == 1 then { x with deleted_at := some 77 } else x) }) ∧
    soft_delete_enrollment wDB5 1 77 = (true, { wDB5 with
      enrollments := wDB5.enrollments.map
        (fun x => if x.id == 1 then { x with deleted_at := some 77 } else x),
      pings := wDB5.pings.map
        (fun p => if p.enrollment_id == 1 then
          { p with deleted_at := some 77 } else p) }) :=
  ⟨(soft_delete_cascade_frame.1 wDB5 999 77 (by decide) (by decide) (by decide)
      (by decide) (by decide) (by decide)).1 (by decide),
    (soft_delete_cascade_frame.1 wDB5 1 77 (by decide) (by decide) (by decide)
      (by decide) (by decide) (by decide)).2 wStudy (by decide),
    (soft_delete_cascade_frame.2 wDB5 1 77 (by decide) (by decide)).2 wEnrollment
      (by decide)⟩

end Pingbot
